import Mathlib

/-!
# cmm: a shallow embedding of `src/main.cpp`

The Python extension `cmm` wraps the colour management library lcms2.  The
functions of `main.cpp` are embedded here as Lean functions.

* A `std::string` holding a tag name is a Lean `String`; a `std::string` holding
  text bytes (description, copyright) is a `List Byte`.
* A numpy array is an `NdArray`: the shape of `buffer_info` and the element
  accessor of `unchecked<n>()`.  Where a binding hands lcms2 a pointer into an
  array (`eval_lut16`), the array is a `StridedArray`: shape, strides, base
  pointer and the memory behind them.
* lcms2 itself is not part of the repository.  It enters as a parameter
  `L : Lcms`, which answers every library call; the calls a binding makes are
  recorded, in program order, as a `List Call`.
* A pointer or handle is a `Handle`, with `NULL = 0`.
* Array extents are natural numbers and a loop `for (int i = 0; i < n; i++)` over
  an extent `n` runs through `List.range n`: extents stay below `2 ^ 31`, so the
  `int` counters do not overflow.  The casts to `cmsUInt32Number` are written
  out as `% 2 ^ 32`.
-/

namespace Cmm

/-! ## Basic types -/

/-- One `char` of a `std::string`, as the byte it occupies. -/
abbrev Byte := Fin 256

/-- An lcms2 handle or pointer (`cmsHPROFILE`, `cmsPipeline*`, `cmsStage*`,
`cmsToneCurve*`, `cmsMLU*`, `void*`). -/
abbrev Handle := Nat

/-- The null pointer. -/
def NULL : Handle := 0

/-- The tag signatures of `lcms2.h` that `main.cpp` names. -/
inductive cmsTagSignature where
  | cmsSigAToB0Tag
  | cmsSigAToB1Tag
  | cmsSigAToB2Tag
  | cmsSigBToA0Tag
  | cmsSigBToA1Tag
  | cmsSigBToA2Tag
  | cmsSigGamutTag
  | cmsSigProfileDescriptionTag
  | cmsSigCopyrightTag
  | cmsSigMediaWhitePointTag
  deriving DecidableEq, Repr

open cmsTagSignature

/-! ## `invalidChar` and `stripNonAscii` (lines 31-37) -/

/-- The value of a `char` holding byte `b`: when `char` is signed the bytes
128..255 are the values -128..-1. -/
def charValue (charSigned : Bool) (b : Byte) : Int :=
  if charSigned && decide (128 ≤ b.val) then (b.val : Int) - 256 else (b.val : Int)

/-- `bool invalidChar(char c) { return c < 32 || c >= 127; }` -/
def invalidChar (charSigned : Bool) (c : Byte) : Bool :=
  decide (charValue charSigned c < 32) || decide (charValue charSigned c ≥ 127)

/-- `std::remove_if(first, last, pred)` followed by `erase` of the tail: the
elements for which `pred` is false are kept, in their order. -/
def remove_if_erase (pred : Byte → Bool) : List Byte → List Byte
  | [] => []
  | c :: cs => if pred c then remove_if_erase pred cs else c :: remove_if_erase pred cs

/-- `str.erase(remove_if(str.begin(), str.end(), invalidChar), str.end());` -/
def stripNonAscii (charSigned : Bool) (str : List Byte) : List Byte :=
  remove_if_erase (invalidChar charSigned) str

/-- `std::string::c_str()` read as a C string, and `std::string(const char*)`:
the bytes before the first NUL. -/
def c_str (s : List Byte) : List Byte :=
  s.takeWhile (fun b => b.val != 0)

/-! ## The tag registry (lines 39-49) -/

/-- A `std::map<std::string, cmsTagSignature>`, as its key/value pairs. -/
abbrev TagMap := List (String × cmsTagSignature)

/-- The assignment `m[key] = value`: the entry of `key` is replaced when the key is
present, and added otherwise. -/
def map_assign : TagMap → String → cmsTagSignature → TagMap
  | [], key, value => [(key, value)]
  | (k, v) :: rest, key, value =>
    if k = key then (k, value) :: rest else (k, v) :: map_assign rest key value

/-- The call `m.count(key)`: 1 when the key is present, 0 otherwise. -/
def map_count : TagMap → String → Nat
  | [], _ => 0
  | (k, _) :: rest, key => if k = key then 1 else map_count rest key

/-- The read `m[key]` of a key that `count` found. -/
def map_index : TagMap → String → Option cmsTagSignature
  | [], _ => none
  | (k, v) :: rest, key => if k = key then some v else map_index rest key

/-- The function `get_lut_tag_map()`: seven assignments to an empty map. -/
def get_lut_tag_map : TagMap :=
  let lut_tag_map : TagMap := []
  let lut_tag_map := map_assign lut_tag_map "B2A0" cmsSigBToA0Tag
  let lut_tag_map := map_assign lut_tag_map "B2A1" cmsSigBToA1Tag
  let lut_tag_map := map_assign lut_tag_map "B2A2" cmsSigBToA2Tag
  let lut_tag_map := map_assign lut_tag_map "A2B0" cmsSigAToB0Tag
  let lut_tag_map := map_assign lut_tag_map "A2B1" cmsSigAToB1Tag
  let lut_tag_map := map_assign lut_tag_map "A2B2" cmsSigAToB2Tag
  let lut_tag_map := map_assign lut_tag_map "gamt" cmsSigGamutTag
  lut_tag_map

/-- The lookup every binding performs: `if (!lut_tag_map.count(tag)) return 0;`
followed by `lut_tag_map[tag]`.  `none` is the branch that returns 0. -/
def lut_tag_lookup (tag : String) : Option cmsTagSignature :=
  let lut_tag_map := get_lut_tag_map
  if map_count lut_tag_map tag = 0 then none else map_index lut_tag_map tag

/-! ## numpy arrays -/

/-- A `py::array_t<T>` as the bindings see it: `shape` is `buffer_info::shape`
(its length is `buffer_info::ndim`) and `elem` is the element accessor of
`unchecked<n>()`, which performs no bounds check and so answers at every index.
The accessor follows the strides of the array.  The one read through
`buffer_info::ptr` (the white point of `create_partial_profile`, 1-dimensional)
is of a C-contiguous array, where `ptr[k]` is entry `k`. -/
structure NdArray (α : Type) where
  shape : List Nat
  elem : List Nat → α

/-- The field `buffer_info::ndim`. -/
def NdArray.ndim {α : Type} (a : NdArray α) : Nat := a.shape.length

/-- The read `buffer_info::shape[k]`; the bindings read it only for `k < ndim`. -/
def NdArray.dim {α : Type} (a : NdArray α) (k : Nat) : Nat := a.shape.getD k 0

/-- The store `*a.mutable_data(idx) = v` through `mutable_unchecked<n>()`. -/
def NdArray.write {α : Type} (a : NdArray α) (idx : List Nat) (v : α) : NdArray α :=
  { shape := a.shape, elem := fun j => if j = idx then v else a.elem j }

/-- Row `i` of a 2-dimensional array up to column `n`: the entries
`(i, 0), ..., (i, n - 1)`. -/
def NdArray.row {α : Type} (a : NdArray α) (i n : Nat) : List α :=
  (List.range n).map (fun c => a.elem [i, c])

/-- A `py::array_t<cmsUInt16Number>` with the memory behind it, for the binding that
hands lcms2 pointers into the array.  `shape` and `strides` are those of
`buffer_info`, `ptr` is `buffer_info::ptr` and `mem` is the memory, by address;
addresses and strides are counted in elements (`cmsUInt16Number`), and a stride
may be negative.  The binding declares no `py::array::c_style`, so a view such
as `a[:, ::2]` arrives as it is, with the strides of the view. -/
structure StridedArray where
  shape : List Nat
  strides : List Int
  ptr : Int
  mem : Int → Nat

/-- The field `buffer_info::ndim`. -/
def StridedArray.ndim (a : StridedArray) : Nat := a.shape.length

/-- The read `buffer_info::shape[k]`; the bindings read it only for `k < ndim`. -/
def StridedArray.dim (a : StridedArray) (k : Nat) : Nat := a.shape.getD k 0

/-- The stride of dimension `k`. -/
def StridedArray.stride (a : StridedArray) (k : Nat) : Int := a.strides.getD k 0

/-- The pointer `data(i, j)`, and `mutable_data(i, j)`, of `unchecked<2>()`: `ptr` moved
by `i` row strides and `j` column strides. -/
def StridedArray.data (a : StridedArray) (i j : Nat) : Int :=
  a.ptr + (i : Int) * a.stride 0 + (j : Int) * a.stride 1

/-- The array as `unchecked<2>()` shows it: entry `(i, j)` is the element at
`data(i, j)`. -/
def StridedArray.unchecked (a : StridedArray) : NdArray Nat :=
  { shape := a.shape, elem := fun idx => a.mem (a.data (idx.getD 0 0) (idx.getD 1 0)) }

/-- The `n` values a library routine reads at the pointer `p`: `p[0], ..., p[n - 1]`. -/
def StridedArray.load (a : StridedArray) (p : Int) (n : Nat) : List Nat :=
  (List.range n).map (fun (k : Nat) => a.mem (p + (k : Int)))

/-- The effect of a library routine that stores `Out[0], ..., Out[n - 1]` at the
pointer `p`. -/
def StridedArray.store (a : StridedArray) (p : Int) (n : Nat) (Out : Nat → Nat) : StridedArray :=
  { shape := a.shape, strides := a.strides, ptr := a.ptr,
    mem := fun q => if p ≤ q ∧ q < p + (n : Int) then Out (q - p).toNat else a.mem q }

/-! ## The lcms2 interface -/

/-- A `double`, carried as its 64 bit pattern: the bindings only move such values. -/
abbrev cmsFloat64Number := Nat

/-- The `double` literal `2.4`. -/
def double_2_4 : cmsFloat64Number := 0x4003333333333333

/-- The device classes of `lcms2.h` that `main.cpp` names. -/
inductive cmsProfileClassSignature where
  | cmsSigInputClass
  | cmsSigDisplayClass
  | cmsSigOutputClass
  | cmsSigLinkClass
  | cmsSigAbstractClass
  | cmsSigColorSpaceClass
  | cmsSigNamedColorClass
  deriving DecidableEq, Repr

/-- The colour spaces of `lcms2.h` that `create_partial_profile` names. -/
inductive cmsColorSpaceSignature where
  | cmsSigXYZData
  | cmsSigLabData
  | cmsSigRgbData
  deriving DecidableEq, Repr

/-- The insertion points of `cmsPipelineInsertStage`. -/
inductive cmsStageLoc where
  | cmsAT_BEGIN
  | cmsAT_END
  deriving DecidableEq, Repr

/-- The `data` argument of `cmsWriteTag`: a pipeline or MLU pointer, or the address
of a `cmsCIEXYZ` on the stack, given by its three fields. -/
inductive TagData where
  | ptr (p : Handle)
  | XYZ (X Y Z : cmsFloat64Number)
  deriving DecidableEq, Repr

/-- One call into lcms2 that changes or allocates library state, with its
arguments and its result.  The context argument is `NULL` in every call and is
left out; `cmsMLUsetASCII` is always called with `cmsNoLanguage, cmsNoCountry`.
`creator` is the store `icc->creator = _cmsAdjustEndianess32(sig)`. -/
inductive Call where
  | cmsPipelineAlloc (InputChannels OutputChannels : Nat) (ret : Handle)
  | cmsBuildTabulatedToneCurve16 (nEntries : Nat) (values : List Nat) (ret : Handle)
  | cmsStageAllocToneCurves (nChannels : Nat) (Curves : List Handle) (ret : Handle)
  | cmsStageAllocCLut16bit (nGridPoints inputChan outputChan : Nat) (Table : List Nat)
      (ret : Handle)
  | cmsPipelineInsertStage (lut : Handle) (loc : cmsStageLoc) (mpe : Handle)
  | cmsWriteTag (hProfile : Handle) (sig : cmsTagSignature) (data : TagData) (ret : Bool)
  | cmsPipelineFree (lut : Handle)
  | cmsLinkTag (hProfile : Handle) (sig dest : cmsTagSignature) (ret : Bool)
  | cmsCreateProfilePlaceholder (ret : Handle)
  | cmsSetProfileVersion (hProfile : Handle) (Version : cmsFloat64Number)
  | cmsSetDeviceClass (hProfile : Handle) (sig : cmsProfileClassSignature)
  | cmsSetColorSpace (hProfile : Handle) (sig : cmsColorSpaceSignature)
  | cmsSetPCS (hProfile : Handle) (pcs : cmsColorSpaceSignature)
  | cmsSetHeaderAttributes (hProfile : Handle) (Flags : Nat)
  | creator (hProfile : Handle) (sig : Nat)
  | cmsMLUalloc (nItems : Nat) (ret : Handle)
  | cmsMLUsetASCII (mlu : Handle) (ASCIIString : List Byte)
  | cmsMLUfree (mlu : Handle)
  | cmsCloseProfile (hProfile : Handle)
  deriving DecidableEq, Repr

/-- The payload `_cmsStageToneCurvesData` of a tone curve stage
(`lcms2_internal.h`): `nCurves` and the array `TheCurves`. -/
structure _cmsStageToneCurvesData where
  nCurves : Nat
  TheCurves : Nat → Handle

/-- The library lcms2, as the bindings use it.  An entry that allocates or
changes library state takes the calls made so far in the running binding as
its first argument, so its answer may differ from call to call; the other
entries are queries. -/
structure Lcms where
  /-- The constants `cmsReflective`, `cmsGlossy` and `cmsMatte` of `lcms2.h`. -/
  cmsReflective : Nat
  cmsGlossy : Nat
  cmsMatte : Nat
  cmsPipelineAlloc : List Call → Nat → Nat → Handle
  cmsBuildTabulatedToneCurve16 : List Call → Nat → List Nat → Handle
  cmsStageAllocToneCurves : List Call → Nat → List Handle → Handle
  cmsStageAllocCLut16bit : List Call → Nat → Nat → Nat → List Nat → Handle
  cmsWriteTag : List Call → Handle → cmsTagSignature → TagData → Bool
  cmsLinkTag : List Call → Handle → cmsTagSignature → cmsTagSignature → Bool
  cmsCreateProfilePlaceholder : List Call → Handle
  cmsMLUalloc : List Call → Nat → Handle
  cmsIsTag : Handle → cmsTagSignature → Bool
  cmsReadTag : Handle → cmsTagSignature → Handle
  cmsPipelineInputChannels : Handle → Nat
  cmsPipelineOutputChannels : Handle → Nat
  /-- The routine `cmsPipelineEval16(In, Out, lut)`: from the input values found at `In`,
  the value stored at `Out[c]`. -/
  cmsPipelineEval16 : Handle → List Nat → Nat → Nat
  cmsPipelineGetPtrToFirstStage : Handle → Handle
  /-- The read of `stage->Data` through the cast to `_cmsStageToneCurvesData*`. -/
  Data : Handle → _cmsStageToneCurvesData
  cmsEvalToneCurve16 : Handle → Nat → Nat
  /-- The routine `cmsGetProfileInfoASCII(hp, cmsInfoDescription, "eng", "USA", Buffer, n)`:
  `none` is the call with `(NULL, 0)`, `some n` the call with a buffer of `n`
  bytes; the answer is the returned count and the bytes left in the buffer. -/
  cmsGetProfileInfoASCII : Handle → Option Nat → Nat × List Byte

/-! ## `get_available_b2an_list` (lines 309-330) -/

/-- The binding `get_available_b2an_list(hp)`. -/
def get_available_b2an_list (L : Lcms) (hp : Handle) : List String :=
  let p0 := if L.cmsIsTag hp cmsSigBToA0Tag then L.cmsReadTag hp cmsSigBToA0Tag else NULL
  let p1 := if L.cmsIsTag hp cmsSigBToA1Tag then L.cmsReadTag hp cmsSigBToA1Tag else NULL
  let p2 := if L.cmsIsTag hp cmsSigBToA2Tag then L.cmsReadTag hp cmsSigBToA2Tag else NULL
  let r : List String := []
  let r := if p1 ≠ NULL then r ++ ["B2A1"] else r
  let r := if p0 ≠ p1 then r ++ ["B2A0"] else r
  let r := if p2 ≠ p1 then r ++ ["B2A2"] else r
  r

/-! ## `get_profile_description` (lines 351-364) -/

/-- The binding `get_profile_description(hp)`; `none` is Python's `None`. -/
def get_profile_description (L : Lcms) (charSigned : Bool) (hp : Handle) :
    Option (List Byte) :=
  let len := (L.cmsGetProfileInfoASCII hp none).1
  if len = 0 then none
  else
    let filled := L.cmsGetProfileInfoASCII hp (some len)
    if filled.1 = 0 then none
    else
      let ret := c_str (filled.2.take len)
      some (stripNonAscii charSigned ret)

/-! ## `get_transform_formatter` (lines 499-501) -/

/-- Modelled from the spec: the shift macros `FLOAT_SH`, `COLORSPACE_SH`,
`CHANNELS_SH`, `BYTES_SH`, `DOSWAP_SH` and `EXTRA_SH` are defined in `lcms2.h`, which
is not among the sources.  Each places its argument in a fixed bit field of
the formatter: `FLOAT_SH` at bit 22. -/
def FLOAT_SH (a : Nat) : Nat := a <<< 22

/-- Modelled from the spec: the macro `COLORSPACE_SH` of `lcms2.h`, field at bit 16. -/
def COLORSPACE_SH (s : Nat) : Nat := s <<< 16

/-- Modelled from the spec: the macro `DOSWAP_SH` of `lcms2.h`, field at bit 10. -/
def DOSWAP_SH (e : Nat) : Nat := e <<< 10

/-- Modelled from the spec: the macro `EXTRA_SH` of `lcms2.h`, field at bit 7. -/
def EXTRA_SH (e : Nat) : Nat := e <<< 7

/-- Modelled from the spec: the macro `CHANNELS_SH` of `lcms2.h`, field at bit 3. -/
def CHANNELS_SH (c : Nat) : Nat := c <<< 3

/-- Modelled from the spec: the macro `BYTES_SH` of `lcms2.h`, field at bit 0. -/
def BYTES_SH (b : Nat) : Nat := b

/-- The binding `get_transform_formatter(is_float, pixel_type, n_ch, n_byte, swap, extra)`,
on arguments that are not negative. -/
def get_transform_formatter (fl pt n_ch n_byte swap extra : Nat) : Nat :=
  FLOAT_SH fl ||| COLORSPACE_SH pt ||| CHANNELS_SH n_ch ||| BYTES_SH n_byte |||
    DOSWAP_SH swap ||| EXTRA_SH extra

/-! ## `setAsciiTag` (lines 18-24) and `create_partial_profile` (lines 622-663) -/

/-- The helper `setAsciiTag(str, hProfile, tag)`, run after the calls `log`: its result
and the calls made so far. -/
def setAsciiTag (L : Lcms) (log : List Call) (str : List Byte) (hProfile : Handle)
    (tag : cmsTagSignature) : Bool × List Call :=
  let m := L.cmsMLUalloc log 0
  let log := log ++ [Call.cmsMLUalloc 0 m]
  let log := log ++ [Call.cmsMLUsetASCII m (c_str str)]
  let rc := L.cmsWriteTag log hProfile tag (TagData.ptr m)
  let log := log ++ [Call.cmsWriteTag hProfile tag (TagData.ptr m) rc]
  let log := log ++ [Call.cmsMLUfree m]
  (rc, log)

/-- The binding `create_partial_profile(desc, cprt, is_glossy, wtpt)`: the returned
handle and the library calls made. -/
def create_partial_profile (L : Lcms) (desc cprt : List Byte) (is_glossy : Bool)
    (wtpt : NdArray cmsFloat64Number) : Handle × List Call :=
  if wtpt.ndim ≠ 1 ∨ wtpt.dim 0 ≠ 3 then (NULL, [])
  else
    let log : List Call := []
    let hProfile := L.cmsCreateProfilePlaceholder log
    let log := log ++ [Call.cmsCreateProfilePlaceholder hProfile]
    if hProfile = NULL then (NULL, log)
    else
      let log := log ++ [Call.cmsSetProfileVersion hProfile double_2_4]
      let log := log ++ [Call.cmsSetDeviceClass hProfile .cmsSigOutputClass]
      let log := log ++ [Call.cmsSetColorSpace hProfile .cmsSigRgbData]
      let log := log ++ [Call.cmsSetPCS hProfile .cmsSigLabData]
      let attr := L.cmsReflective ||| (if is_glossy then L.cmsGlossy else L.cmsMatte)
      let log := log ++ [Call.cmsSetHeaderAttributes hProfile attr]
      let log := log ++ [Call.creator hProfile 0x5a59474f]
      let d := setAsciiTag L log desc hProfile cmsSigProfileDescriptionTag
      if d.1 = false then (NULL, d.2 ++ [Call.cmsCloseProfile hProfile])
      else
        let c := setAsciiTag L d.2 cprt hProfile cmsSigCopyrightTag
        if c.1 = false then (NULL, c.2 ++ [Call.cmsCloseProfile hProfile])
        else
          let wtptXYZ := TagData.XYZ (wtpt.elem [0]) (wtpt.elem [1]) (wtpt.elem [2])
          let rc := L.cmsWriteTag c.2 hProfile cmsSigMediaWhitePointTag wtptXYZ
          let log := c.2 ++ [Call.cmsWriteTag hProfile cmsSigMediaWhitePointTag wtptXYZ rc]
          if rc = false then (NULL, log ++ [Call.cmsCloseProfile hProfile])
          else (hProfile, log)

/-! ## `add_lut16` (lines 682-750) -/

/-- The inner loop of `_table_stage` (lines 712-715): a vector of `nEntries`
zeros, then `values[ii] = table_c(ii, i)` for `ii = 0, ..., nEntries - 1`. -/
def table_values (table_c : NdArray Nat) (nEntries i : Nat) : List Nat :=
  let values : List Nat := List.replicate nEntries 0
  (List.range nEntries).foldl (fun values ii => values.set ii (table_c.elem [ii, i])) values

/-- The body of the loop over the channels in `_table_stage` (lines 711-717), on
the vector `tc` and the calls made so far. -/
def table_stage_step (L : Lcms) (table_c : NdArray Nat) (nEntries : Nat)
    (st : List Handle × List Call) (i : Nat) : List Handle × List Call :=
  let values := table_values table_c nEntries i
  let h := L.cmsBuildTabulatedToneCurve16 st.2 (nEntries % 2 ^ 32) values
  (st.1.set i h, st.2 ++ [Call.cmsBuildTabulatedToneCurve16 (nEntries % 2 ^ 32) values h])

/-- The lambda `_table_stage(table_c)` (lines 707-720), run after the calls
`log`: the stage it returns and the calls made so far.  The casts
`(cmsUInt32Number)nEntries` and `(cmsUInt32Number)nCh` are the `% 2 ^ 32`. -/
def _table_stage (L : Lcms) (log : List Call) (table_c : NdArray Nat) : Handle × List Call :=
  let nEntries := table_c.dim 0
  let nCh := table_c.dim 1
  let tc : List Handle := List.replicate nCh NULL
  let st := (List.range nCh).foldl (table_stage_step L table_c nEntries) (tc, log)
  let stage := L.cmsStageAllocToneCurves st.2 (nCh % 2 ^ 32) st.1
  (stage, st.2 ++ [Call.cmsStageAllocToneCurves (nCh % 2 ^ 32) st.1 stage])

/-- The flattening loop (lines 724-740) on the vector `clut_table`.  The reads
into `r`, `g` and `b` (lines 731-733) feed only the comparison of line 734, whose
branch changes a local `k` and nothing else; they are listed by `clut_loop_reads`
and leave `clut_table` as it is. -/
def clut_table_loop (clut_c : NdArray Nat) (n_clut_point n_out_ch : Nat)
    (clut_table : List Nat) : List Nat :=
  (List.range n_clut_point).foldl (fun clut_table i =>
    (List.range n_clut_point).foldl (fun clut_table ii =>
      (List.range n_clut_point).foldl (fun clut_table iii =>
        let pos := i * n_clut_point * n_clut_point + ii * n_clut_point + iii
        (List.range n_out_ch).foldl (fun clut_table a =>
          clut_table.set (pos * n_out_ch + a) (clut_c.elem [i, ii, iii, a])) clut_table)
        clut_table) clut_table) clut_table

/-- The indices at which the flattening loop (lines 724-740) reads `clut_c`, in
program order: per grid point the reads of line 729, then those of lines
731-733. -/
def clut_loop_reads (n_clut_point n_out_ch : Nat) : List (List Nat) :=
  (List.range n_clut_point).flatMap fun i =>
    (List.range n_clut_point).flatMap fun ii =>
      (List.range n_clut_point).flatMap fun iii =>
        (List.range n_out_ch).map (fun a => [i, ii, iii, a]) ++
          [[i, ii, iii, 0], [i, ii, iii, 1], [i, ii, iii, 2]]

/-- The vector `clut_table` that line 741 hands to `cmsStageAllocCLut16bit`: the
zero vector of line 723 after the loop of lines 724-740. -/
def clut_table_of (clut_c : NdArray Nat) (n_clut_point n_out_ch : Nat) : List Nat :=
  clut_table_loop clut_c n_clut_point n_out_ch
    (List.replicate (n_clut_point * n_clut_point * n_clut_point * n_out_ch) 0)

/-- The binding `add_lut16(hprofile, tag, n_out_ch, clut, pre_table, post_table)`: the
returned `int` and the library calls made.  `n_out_ch` is an `int`; where it is
passed as `cmsUInt32Number` or bounds a loop it is not negative, being equal to
`clut.shape[3]`. -/
def add_lut16 (L : Lcms) (hp : Handle) (tag : String) (n_out_ch : Int)
    (clut pre_table post_table : NdArray Nat) : Int × List Call :=
  let N_IN_CH : Nat := 3
  if pre_table.ndim ≠ 2 ∨ pre_table.dim 1 ≠ N_IN_CH
      ∨ clut.ndim ≠ N_IN_CH + 1 ∨ (clut.dim 3 : Int) ≠ n_out_ch
      ∨ clut.dim 0 ≠ clut.dim 1 ∨ clut.dim 1 ≠ clut.dim 2
      ∨ post_table.ndim ≠ 2 ∨ (post_table.dim 1 : Int) ≠ n_out_ch then (0, [])
  else
    match lut_tag_lookup tag with
    | none => (0, [])
    | some tag_sig =>
      let n_clut_point := clut.dim 0
      let log : List Call := []
      let pipeline := L.cmsPipelineAlloc log N_IN_CH (n_out_ch % 2 ^ 32).toNat
      let log := log ++ [Call.cmsPipelineAlloc N_IN_CH (n_out_ch % 2 ^ 32).toNat pipeline]
      if pipeline = NULL then (0, log)
      else
        let pre := _table_stage L log pre_table
        let log := pre.2 ++ [Call.cmsPipelineInsertStage pipeline .cmsAT_BEGIN pre.1]
        let clut_table := clut_table_of clut n_clut_point n_out_ch.toNat
        let clut_stage := L.cmsStageAllocCLut16bit log (n_clut_point % 2 ^ 32) N_IN_CH
          (n_out_ch % 2 ^ 32).toNat clut_table
        let log := log ++ [Call.cmsStageAllocCLut16bit (n_clut_point % 2 ^ 32) N_IN_CH
          (n_out_ch % 2 ^ 32).toNat clut_table clut_stage]
        let log := log ++ [Call.cmsPipelineInsertStage pipeline .cmsAT_END clut_stage]
        let post := _table_stage L log post_table
        let log := post.2 ++ [Call.cmsPipelineInsertStage pipeline .cmsAT_END post.1]
        let rc := L.cmsWriteTag log hp tag_sig (TagData.ptr pipeline)
        let log := log ++ [Call.cmsWriteTag hp tag_sig (TagData.ptr pipeline) rc]
        if rc = false then (0, log ++ [Call.cmsPipelineFree pipeline])
        else (-1, log ++ [Call.cmsPipelineFree pipeline])

/-! ## `link_tag` (lines 775-780) -/

/-- The binding `link_tag(hprofile, link_tag, dest_tag)`: the returned `int` (the
`cmsBool` of `cmsLinkTag`, `TRUE = 1`) and the library calls made. -/
def link_tag (L : Lcms) (hp : Handle) (link_tag dest_tag : String) : Int × List Call :=
  match lut_tag_lookup link_tag, lut_tag_lookup dest_tag with
  | some link_sig, some dest_sig =>
    let rc := L.cmsLinkTag [] hp link_sig dest_sig
    ((if rc then 1 else 0), [Call.cmsLinkTag hp link_sig dest_sig rc])
  | _, _ => (0, [])

/-! ## `eval_lut16` (lines 799-819) and `eval_pre_table` (lines 838-861) -/

/-- The binding `eval_lut16(hprofile, tag, input_array, output_array)`: the returned
`int` and `output_array` after the call.  `none` is a call that does not
return: `cmsPipelineInputChannels` dereferences the pipeline pointer, which is
`NULL` when the tag cannot be read.  In the loop of lines 816-818 the library
reads its `inCh` input values at the pointer `input_c.data(i, 0)` and stores its
`outCh` output values at the pointer `output_c.mutable_data(i, 0)`, whatever the
column strides of the arrays.  The two arrays do not overlap in memory. -/
def eval_lut16 (L : Lcms) (hp : Handle) (tag : String)
    (input_array output_array : StridedArray) : Option (Int × StridedArray) :=
  match lut_tag_lookup tag with
  | none => some (0, output_array)
  | some tag_sig =>
    let pipeline := L.cmsReadTag hp tag_sig
    if pipeline = NULL then none
    else
      let inCh := L.cmsPipelineInputChannels pipeline
      let outCh := L.cmsPipelineOutputChannels pipeline
      if input_array.ndim ≠ 2 ∨ input_array.dim 1 ≠ inCh
          ∨ output_array.ndim ≠ 2 ∨ output_array.dim 1 ≠ outCh
          ∨ input_array.dim 0 ≠ output_array.dim 0 then some (0, output_array)
      else
        some (-1, (List.range (input_array.dim 0)).foldl (fun output_c i =>
          output_c.store (output_c.data i 0) outCh
            (L.cmsPipelineEval16 pipeline (input_array.load (input_array.data i 0) inCh)))
          output_array)

/-- The binding `eval_pre_table(hprofile, tag, input_array, output_array)`: the returned
`int` and `output_array` after the call.  `none` is a call that does not
return: `cmsPipelineGetPtrToFirstStage` dereferences the pipeline pointer, and
`preStage->Data` the stage pointer.  The two arrays do not overlap in memory. -/
def eval_pre_table (L : Lcms) (hp : Handle) (tag : String)
    (input_array output_array : NdArray Nat) : Option (Int × NdArray Nat) :=
  match lut_tag_lookup tag with
  | none => some (0, output_array)
  | some tag_sig =>
    let pipeline := L.cmsReadTag hp tag_sig
    if pipeline = NULL then none
    else
      let preStage := L.cmsPipelineGetPtrToFirstStage pipeline
      if preStage = NULL then none
      else
        let tcData := L.Data preStage
        if input_array.ndim ≠ 2 ∨ input_array.dim 1 ≠ tcData.nCurves
            ∨ output_array.ndim ≠ 2 ∨ output_array.dim 1 ≠ tcData.nCurves
            ∨ input_array.dim 0 ≠ output_array.dim 0 then some (0, output_array)
        else
          some (-1, (List.range tcData.nCurves).foldl (fun output_c i =>
            let tc := tcData.TheCurves i
            (List.range (input_array.dim 0)).foldl (fun output_c ii =>
              output_c.write [ii, i] (L.cmsEvalToneCurve16 tc (input_array.elem [ii, i])))
              output_c) output_array)

/-! ## A sample library and sample arrays

Concrete values at which the theorems below are instantiated. -/

/-- A library in which every call succeeds.  A call made after `k` earlier calls
allocates the handle `k + 1`.  The profile holds the tag B2A1 only, a
pipeline of three channels in and out that returns its input, whose first
stage holds three identity curves; its description reads `a`, line feed, `b`. -/
def sample_lcms : Lcms where
  cmsReflective := 0
  cmsGlossy := 0
  cmsMatte := 2
  cmsPipelineAlloc := fun log _ _ => log.length + 1
  cmsBuildTabulatedToneCurve16 := fun log _ _ => log.length + 1
  cmsStageAllocToneCurves := fun log _ _ => log.length + 1
  cmsStageAllocCLut16bit := fun log _ _ _ _ => log.length + 1
  cmsWriteTag := fun _ _ _ _ => true
  cmsLinkTag := fun _ _ _ _ => true
  cmsCreateProfilePlaceholder := fun log => log.length + 1
  cmsMLUalloc := fun log _ => log.length + 1
  cmsIsTag := fun _ sig => decide (sig = cmsSigBToA1Tag)
  cmsReadTag := fun _ sig => if sig = cmsSigBToA1Tag then 7 else NULL
  cmsPipelineInputChannels := fun _ => 3
  cmsPipelineOutputChannels := fun _ => 3
  cmsPipelineEval16 := fun _ In c => In.getD c 0
  cmsPipelineGetPtrToFirstStage := fun _ => 8
  Data := fun _ => { nCurves := 3, TheCurves := fun i => 10 + i }
  cmsEvalToneCurve16 := fun _ v => v
  cmsGetProfileInfoASCII := fun _ _ => (4, [97, 10, 98, 0])

/-- The seven names `get_lut_tag_map` registers. -/
def lut_tag_names : List String :=
  ["A2B0", "A2B1", "A2B2", "B2A0", "B2A1", "B2A2", "gamt"]

/-- The view `a[:, ::2]` of a C-contiguous array `a` of shape (2, 6) that holds
0, ..., 11, memory cell `q` holding `q`: shape (2, 3) and strides (6, 2).  Its
rows are 0, 2, 4 and 6, 8, 10. -/
def sliced_input : StridedArray where
  shape := [2, 3]
  strides := [6, 2]
  ptr := 0
  mem := fun q => q.toNat

/-- A C-contiguous array of shape (2, 3) that holds zeros. -/
def zero_output : StridedArray where
  shape := [2, 3]
  strides := [3, 1]
  ptr := 0
  mem := fun _ => 0

/-- The library `sample_lcms`, except that it refuses what lcms2 refuses in
`_table_stage`: a tone curve of no entries (`cmsBuildTabulatedToneCurve16` answers
`NULL`) and a stage over a `NULL` curve (`cmsStageAllocToneCurves` answers `NULL`). -/
def refusing_lcms : Lcms :=
  { sample_lcms with
    cmsBuildTabulatedToneCurve16 := fun log nEntries _ =>
      if nEntries = 0 then NULL else log.length + 1
    cmsStageAllocToneCurves := fun log _ Curves =>
      if NULL ∈ Curves then NULL else log.length + 1 }

/-! ## Observing the text of a tag write -/

/-- The scan behind `written_text`: `texts m` is the string most recently passed to
`cmsMLUsetASCII` for the MLU `m`. -/
def written_text_scan (sig : cmsTagSignature) :
    List Call → (Handle → Option (List Byte)) → Option (List Byte)
  | [], _ => none
  | Call.cmsMLUsetASCII m t :: rest, texts =>
    written_text_scan sig rest (fun h => if h = m then some t else texts h)
  | Call.cmsWriteTag _ s (TagData.ptr m) _ :: rest, texts =>
    if s = sig then texts m else written_text_scan sig rest texts
  | _ :: rest, texts => written_text_scan sig rest texts

/-- The text passed to the tag write under `sig`: the string last set on the MLU
that the first `cmsWriteTag` under `sig` in `log` is given; `none` when `log`
holds no such write, or no text was set on that MLU. -/
def written_text (log : List Call) (sig : cmsTagSignature) : Option (List Byte) :=
  written_text_scan sig log (fun _ => none)

/-! ## Auxiliary notions for `add_lut16` -/

/-- The CLUT entry that belongs at position `j` of the flattened table of a grid of
`N` points per axis and `c` output channels: the position is read as
`((i * N + ii) * N + iii) * c + a`. -/
def clut_entry_for (clut_c : NdArray Nat) (N c j : Nat) : Nat :=
  clut_c.elem [j / c / N / N, j / c / N % N, j / c % N, j % c]

/-- The calls `_table_stage` makes: `cmsBuildTabulatedToneCurve16` and
`cmsStageAllocToneCurves`. -/
def Call.isToneCurveCall : Call → Bool
  | Call.cmsBuildTabulatedToneCurve16 _ _ _ => true
  | Call.cmsStageAllocToneCurves _ _ _ => true
  | _ => false

/-- A `cmsWriteTag` call, with whatever arguments and result. -/
def Call.isWriteTag : Call → Bool
  | Call.cmsWriteTag _ _ _ _ => true
  | _ => false

/-- The condition of lines 688-691 under which `add_lut16` returns 0 at once. -/
def add_lut16_shape_mismatch (n_out_ch : Int) (clut pre_table post_table : NdArray Nat) : Prop :=
  pre_table.ndim ≠ 2 ∨ pre_table.dim 1 ≠ 3
    ∨ clut.ndim ≠ 4 ∨ (clut.dim 3 : Int) ≠ n_out_ch
    ∨ clut.dim 0 ≠ clut.dim 1 ∨ clut.dim 1 ≠ clut.dim 2
    ∨ post_table.ndim ≠ 2 ∨ (post_table.dim 1 : Int) ≠ n_out_ch

/-- A CLUT of two grid points per axis and three output channels; entry
`(i, ii, iii, a)` holds `1000 * i + 100 * ii + 10 * iii + a`. -/
def sample_clut : NdArray Nat where
  shape := [2, 2, 2, 3]
  elem := fun idx => 1000 * idx.getD 0 0 + 100 * idx.getD 1 0 + 10 * idx.getD 2 0 + idx.getD 3 0

/-- A tone curve table of two entries for each of three channels: the ramp 0, 65535. -/
def sample_table : NdArray Nat where
  shape := [2, 3]
  elem := fun idx => 65535 * idx.getD 0 0

/-- A tone curve table of no entries for each of three channels, as
`numpy.zeros((0, 3))` gives. -/
def empty_table : NdArray Nat where
  shape := [0, 3]
  elem := fun _ => 0

/-! ## Observing a run of `add_lut16` -/

/-- The kinds of object a binding asks lcms2 to allocate. -/
inductive ObjKind where
  | pipeline
  | toneCurve
  | stage
  | mlu
  | profile
  deriving DecidableEq, Repr

/-- The object a call allocates: its kind and the handle returned. -/
def Call.allocates : Call → Option (ObjKind × Handle)
  | Call.cmsPipelineAlloc _ _ ret => some (ObjKind.pipeline, ret)
  | Call.cmsBuildTabulatedToneCurve16 _ _ ret => some (ObjKind.toneCurve, ret)
  | Call.cmsStageAllocToneCurves _ _ ret => some (ObjKind.stage, ret)
  | Call.cmsStageAllocCLut16bit _ _ _ _ ret => some (ObjKind.stage, ret)
  | Call.cmsCreateProfilePlaceholder ret => some (ObjKind.profile, ret)
  | Call.cmsMLUalloc _ ret => some (ObjKind.mlu, ret)
  | _ => none

/-- The object a call releases: `cmsPipelineFree`, `cmsMLUfree` and `cmsCloseProfile` are
the release calls `main.cpp` makes; it never calls `cmsFreeToneCurve`. -/
def Call.releases : Call → Option (ObjKind × Handle)
  | Call.cmsPipelineFree lut => some (ObjKind.pipeline, lut)
  | Call.cmsMLUfree mlu => some (ObjKind.mlu, mlu)
  | Call.cmsCloseProfile hProfile => some (ObjKind.profile, hProfile)
  | _ => none

/-- The effect of one call on the stages of the pipeline `lut`:
`cmsPipelineInsertStage(lut, cmsAT_BEGIN, mpe)` puts `mpe` first, with `cmsAT_END` last.
For `mpe == NULL` lcms2 inserts nothing and answers `FALSE`; the bindings do not
read the answer. -/
def insert_stage_step (lut : Handle) (stages : List Handle) : Call → List Handle
  | Call.cmsPipelineInsertStage l loc mpe =>
    if l = lut ∧ mpe ≠ NULL then
      match loc with
      | cmsStageLoc.cmsAT_BEGIN => mpe :: stages
      | cmsStageLoc.cmsAT_END => stages ++ [mpe]
    else stages
  | _ => stages

/-- The stages of the pipeline `lut` after the calls of `log`, in their order in the
pipeline: the handles that `cmsPipelineInsertStage` was given for `lut` and
inserted. -/
def inserted_stages (log : List Call) (lut : Handle) : List Handle :=
  log.foldl (insert_stage_step lut) []

/-- The bounds check of checked indexing (`py::array_t::at`): one index for each
dimension, each below the extent of its dimension. -/
def NdArray.in_shape {α : Type} (a : NdArray α) (idx : List Nat) : Bool :=
  decide (idx.length = a.shape.length) &&
    (List.zipWith (fun i n => decide (i < n)) idx a.shape).all id

/-- The calls of `_table_stage` that build the curves: channel `c` of the table with
the handle the library answered. -/
def table_curve_calls (table_c : NdArray Nat) (curves : List Handle) : List Call :=
  List.zipWith (fun c h => Call.cmsBuildTabulatedToneCurve16 (table_c.dim 0 % 2 ^ 32)
    (table_values table_c (table_c.dim 0) c) h) (List.range curves.length) curves

/-- The calls of a run of `add_lut16` that passed the validation and allocated its
pipeline `p`, given the handles the library answered. -/
def add_lut16_calls (hp : Handle) (tag_sig : cmsTagSignature) (n_out_ch : Int)
    (clut pre_table post_table : NdArray Nat) (p : Handle) (pre_curves post_curves : List Handle)
    (pre_stage clut_stage post_stage : Handle) (rc : Bool) : List Call :=
  [Call.cmsPipelineAlloc 3 (n_out_ch % 2 ^ 32).toNat p] ++
    table_curve_calls pre_table pre_curves ++
    [Call.cmsStageAllocToneCurves (pre_table.dim 1 % 2 ^ 32) pre_curves pre_stage,
      Call.cmsPipelineInsertStage p cmsStageLoc.cmsAT_BEGIN pre_stage,
      Call.cmsStageAllocCLut16bit (clut.dim 0 % 2 ^ 32) 3 (n_out_ch % 2 ^ 32).toNat
        (clut_table_of clut (clut.dim 0) n_out_ch.toNat) clut_stage,
      Call.cmsPipelineInsertStage p cmsStageLoc.cmsAT_END clut_stage] ++
    table_curve_calls post_table post_curves ++
    [Call.cmsStageAllocToneCurves (post_table.dim 1 % 2 ^ 32) post_curves post_stage,
      Call.cmsPipelineInsertStage p cmsStageLoc.cmsAT_END post_stage,
      Call.cmsWriteTag hp tag_sig (TagData.ptr p) rc,
      Call.cmsPipelineFree p]

/-! # Theorems -/

/-! ## Lemmas on the registry -/

theorem get_lut_tag_map_eq :
    get_lut_tag_map =
      [("B2A0", cmsSigBToA0Tag), ("B2A1", cmsSigBToA1Tag), ("B2A2", cmsSigBToA2Tag),
       ("A2B0", cmsSigAToB0Tag), ("A2B1", cmsSigAToB1Tag), ("A2B2", cmsSigAToB2Tag),
       ("gamt", cmsSigGamutTag)] := by
  decide

theorem lut_tag_lookup_of_not_mem (tag : String) (h : tag ∉ lut_tag_names) :
    lut_tag_lookup tag = none := by
  simp only [lut_tag_names, List.mem_cons, List.mem_singleton, not_or, List.mem_nil_iff,
    or_false] at h
  obtain ⟨h1, h2, h3, h4, h5, h6, h7⟩ := h
  simp only [lut_tag_lookup, get_lut_tag_map_eq, map_count, map_index]
  simp [Ne.symm h1, Ne.symm h2, Ne.symm h3, Ne.symm h4, Ne.symm h5, Ne.symm h6, Ne.symm h7]

theorem lut_tag_lookup_of_mem (tag : String) (h : tag ∈ lut_tag_names) :
    ∃ sig, lut_tag_lookup tag = some sig := by
  simp only [lut_tag_names, List.mem_cons, List.mem_singleton, List.mem_nil_iff,
    or_false] at h
  rcases h with h | h | h | h | h | h | h <;> subst h
  · exact ⟨cmsSigAToB0Tag, by decide⟩
  · exact ⟨cmsSigAToB1Tag, by decide⟩
  · exact ⟨cmsSigAToB2Tag, by decide⟩
  · exact ⟨cmsSigBToA0Tag, by decide⟩
  · exact ⟨cmsSigBToA1Tag, by decide⟩
  · exact ⟨cmsSigBToA2Tag, by decide⟩
  · exact ⟨cmsSigGamutTag, by decide⟩

theorem lut_tag_lookup_eq_none_iff (tag : String) :
    lut_tag_lookup tag = none ↔ tag ∉ lut_tag_names := by
  constructor
  · intro h hm
    obtain ⟨sig, hs⟩ := lut_tag_lookup_of_mem tag hm
    rw [h] at hs
    cases hs
  · exact lut_tag_lookup_of_not_mem tag

theorem add_lut16_of_lookup_none (L : Lcms) (hp : Handle) (tag : String) (n_out_ch : Int)
    (clut pre_table post_table : NdArray Nat) (hnone : lut_tag_lookup tag = none) :
    add_lut16 L hp tag n_out_ch clut pre_table post_table = (0, []) := by
  unfold add_lut16
  simp only [hnone]
  split <;> rfl

/-! ## C3: the tag registry -/

/-- C3: the registry lookup (`count` on `get_lut_tag_map`, then indexing) finds
exactly the seven names A2B0, A2B1, A2B2, B2A0, B2A1, B2A2 and gamt, each with
its own tag signature; every other string is not found, among them `a2b0` and
`GAMT`, and for such a name `add_lut16`, `link_tag` (in either position),
`eval_lut16` and `eval_pre_table` return 0, with no library call made and the
output array as it was. -/
theorem tag_registry_exact :
    lut_tag_lookup "A2B0" = some cmsSigAToB0Tag
    ∧ lut_tag_lookup "A2B1" = some cmsSigAToB1Tag
    ∧ lut_tag_lookup "A2B2" = some cmsSigAToB2Tag
    ∧ lut_tag_lookup "B2A0" = some cmsSigBToA0Tag
    ∧ lut_tag_lookup "B2A1" = some cmsSigBToA1Tag
    ∧ lut_tag_lookup "B2A2" = some cmsSigBToA2Tag
    ∧ lut_tag_lookup "gamt" = some cmsSigGamutTag
    ∧ (∀ tag : String, map_count get_lut_tag_map tag ≠ 0 ↔
        tag ∈ ["A2B0", "A2B1", "A2B2", "B2A0", "B2A1", "B2A2", "gamt"])
    ∧ (∀ tag : String, lut_tag_lookup tag = none ↔
        tag ∉ ["A2B0", "A2B1", "A2B2", "B2A0", "B2A1", "B2A2", "gamt"])
    ∧ lut_tag_lookup "a2b0" = none
    ∧ lut_tag_lookup "GAMT" = none
    ∧ (∀ (L : Lcms) (hp : Handle) (tag other : String) (n_out_ch : Int)
        (clut pre_table post_table input_array output_array : NdArray Nat)
        (input_strided output_strided : StridedArray),
        tag ∉ ["A2B0", "A2B1", "A2B2", "B2A0", "B2A1", "B2A2", "gamt"] →
        add_lut16 L hp tag n_out_ch clut pre_table post_table = (0, [])
        ∧ link_tag L hp tag other = (0, [])
        ∧ link_tag L hp other tag = (0, [])
        ∧ eval_lut16 L hp tag input_strided output_strided = some (0, output_strided)
        ∧ eval_pre_table L hp tag input_array output_array = some (0, output_array)) := by
  refine ⟨by decide, by decide, by decide, by decide, by decide, by decide, by decide,
    ?_, ?_, by decide, by decide, ?_⟩
  · intro tag
    constructor
    · intro h
      by_contra hm
      apply h
      have hm' : tag ∉ lut_tag_names := hm
      simp only [lut_tag_names, List.mem_cons, List.mem_singleton, not_or, List.mem_nil_iff,
        or_false] at hm'
      obtain ⟨h1, h2, h3, h4, h5, h6, h7⟩ := hm'
      simp only [get_lut_tag_map_eq, map_count]
      simp [Ne.symm h1, Ne.symm h2, Ne.symm h3, Ne.symm h4, Ne.symm h5, Ne.symm h6, Ne.symm h7]
    · intro h
      simp only [List.mem_cons, List.mem_singleton, List.mem_nil_iff, or_false] at h
      rcases h with h | h | h | h | h | h | h <;> subst h <;> decide
  · intro tag
    exact lut_tag_lookup_eq_none_iff tag
  · intro L hp tag other n_out_ch clut pre_table post_table input_array output_array
      input_strided output_strided h
    have hnone : lut_tag_lookup tag = none := lut_tag_lookup_of_not_mem tag h
    refine ⟨?_, ?_, ?_, ?_, ?_⟩
    · exact add_lut16_of_lookup_none L hp tag n_out_ch clut pre_table post_table hnone
    · unfold link_tag
      simp only [hnone]
    · unfold link_tag
      simp only [hnone]
      cases lut_tag_lookup other <;> rfl
    · unfold eval_lut16
      simp only [hnone]
    · unfold eval_pre_table
      simp only [hnone]

/-- C3 at the name `a2b0`, which differs from a registered name in letter case
only. -/
theorem tag_registry_exact_witness :
    "a2b0" ∉ ["A2B0", "A2B1", "A2B2", "B2A0", "B2A1", "B2A2", "gamt"]
    ∧ add_lut16 sample_lcms 1 "a2b0" 3 ⟨[2, 2, 2, 3], fun _ => 0⟩ ⟨[2, 3], fun _ => 0⟩
        ⟨[2, 3], fun _ => 0⟩ = (0, [])
    ∧ link_tag sample_lcms 1 "a2b0" "B2A1" = (0, []) :=
  ⟨by decide,
   (tag_registry_exact.2.2.2.2.2.2.2.2.2.2.2 sample_lcms 1 "a2b0" "B2A1" 3
      ⟨[2, 2, 2, 3], fun _ => 0⟩ ⟨[2, 3], fun _ => 0⟩ ⟨[2, 3], fun _ => 0⟩
      ⟨[2, 3], fun _ => 0⟩ ⟨[2, 3], fun _ => 0⟩ zero_output zero_output (by decide)).1,
   (tag_registry_exact.2.2.2.2.2.2.2.2.2.2.2 sample_lcms 1 "a2b0" "B2A1" 3
      ⟨[2, 2, 2, 3], fun _ => 0⟩ ⟨[2, 3], fun _ => 0⟩ ⟨[2, 3], fun _ => 0⟩
      ⟨[2, 3], fun _ => 0⟩ ⟨[2, 3], fun _ => 0⟩ zero_output zero_output (by decide)).2.1⟩

/-! ## C10: `stripNonAscii` -/

theorem invalidChar_eq_false_iff (charSigned : Bool) (c : Byte) :
    invalidChar charSigned c = false ↔ 32 ≤ c.val ∧ c.val ≤ 126 := by
  have hc := c.isLt
  cases charSigned <;> simp only [invalidChar, charValue] <;> by_cases h : 128 ≤ c.val <;>
    simp [h] <;> omega

theorem remove_if_erase_eq_filter (pred : Byte → Bool) (s : List Byte) :
    remove_if_erase pred s = s.filter (fun c => !pred c) := by
  induction s with
  | nil => rfl
  | cons c cs ih =>
    by_cases h : pred c = true
    · simp [remove_if_erase, h, ih]
    · simp [remove_if_erase, h, ih]

theorem stripNonAscii_eq_filter (charSigned : Bool) (s : List Byte) :
    stripNonAscii charSigned s = s.filter (fun b => decide (32 ≤ b.val ∧ b.val ≤ 126)) := by
  unfold stripNonAscii
  rw [remove_if_erase_eq_filter]
  apply List.filter_congr
  intro c _
  by_cases h : 32 ≤ c.val ∧ c.val ≤ 126
  · rw [(invalidChar_eq_false_iff charSigned c).2 h]
    simp [h]
  · have : invalidChar charSigned c = true := by
      cases hi : invalidChar charSigned c
      · exact absurd ((invalidChar_eq_false_iff charSigned c).1 hi) h
      · rfl
    rw [this]
    simp [h]

/-- C10: for a signed as for an unsigned `char`, `stripNonAscii` keeps exactly the
bytes of its argument that lie in [32, 126], in their order (so the bytes
128..255 go); its result holds only such bytes, it is idempotent, it leaves a
string of printable bytes as it is, and whatever string
`get_profile_description` returns holds only bytes in [32, 126]. -/
theorem stripNonAscii_printable (charSigned : Bool) (s : List Byte) :
    stripNonAscii charSigned s = s.filter (fun b => decide (32 ≤ b.val ∧ b.val ≤ 126))
    ∧ List.Sublist (stripNonAscii charSigned s) s
    ∧ (∀ b ∈ stripNonAscii charSigned s, 32 ≤ b.val ∧ b.val ≤ 126)
    ∧ (∀ b ∈ s, 128 ≤ b.val → b ∉ stripNonAscii charSigned s)
    ∧ stripNonAscii charSigned (stripNonAscii charSigned s) = stripNonAscii charSigned s
    ∧ ((∀ b ∈ s, 32 ≤ b.val ∧ b.val ≤ 126) → stripNonAscii charSigned s = s)
    ∧ (∀ (L : Lcms) (hp : Handle) (ret : List Byte),
        get_profile_description L charSigned hp = some ret →
          ∀ b ∈ ret, 32 ≤ b.val ∧ b.val ≤ 126) := by
  have hmem : ∀ (t : List Byte), ∀ b ∈ stripNonAscii charSigned t, 32 ≤ b.val ∧ b.val ≤ 126 := by
    intro t b hb
    rw [stripNonAscii_eq_filter] at hb
    simpa using (List.mem_filter.1 hb).2
  have hfix : ∀ (t : List Byte), (∀ b ∈ t, 32 ≤ b.val ∧ b.val ≤ 126) →
      stripNonAscii charSigned t = t := by
    intro t ht
    rw [stripNonAscii_eq_filter]
    apply List.filter_eq_self.2
    intro b hb
    simpa using ht b hb
  refine ⟨stripNonAscii_eq_filter charSigned s, ?_, hmem s, ?_, hfix _ (hmem s), hfix s, ?_⟩
  · rw [stripNonAscii_eq_filter]
    exact List.filter_sublist s
  · intro b _ hb hin
    have := hmem s b hin
    omega
  · intro L hp ret h
    unfold get_profile_description at h
    simp only at h
    split at h
    · cases h
    · split at h
      · cases h
      · cases h
        exact hmem _

/-- C10 at the string `a`, `b`, `c`, whose bytes are printable. -/
theorem stripNonAscii_printable_witness :
    (∀ b ∈ ([97, 98, 99] : List Byte), 32 ≤ b.val ∧ b.val ≤ 126)
    ∧ stripNonAscii true [97, 98, 99] = [97, 98, 99] :=
  ⟨by simp; decide, (stripNonAscii_printable true [97, 98, 99]).2.2.2.2.2.1 (by simp; decide)⟩

/-! ## C8: `get_transform_formatter` -/

theorem shiftLeft_or_low (b k a : Nat) (h : a < 2 ^ k) : b <<< k ||| a = b * 2 ^ k + a := by
  rw [Nat.shiftLeft_eq, Nat.mul_comm b, Nat.mul_add_lt_is_or h]

theorem or_by_position (A B C D E F : Nat) :
    A ||| B ||| C ||| D ||| E ||| F = A ||| (B ||| (E ||| (F ||| (C ||| D)))) := by
  ac_rfl

theorem get_transform_formatter_eq_sum (fl pt n_ch n_byte swap extra : Nat)
    (hpt : pt < 32) (hch : n_ch < 16) (hb : n_byte < 8) (hs : swap < 2) (he : extra < 8) :
    get_transform_formatter fl pt n_ch n_byte swap extra
      = fl * 2 ^ 22 + pt * 2 ^ 16 + swap * 2 ^ 10 + extra * 2 ^ 7 + n_ch * 2 ^ 3 + n_byte := by
  unfold get_transform_formatter FLOAT_SH COLORSPACE_SH CHANNELS_SH BYTES_SH DOSWAP_SH EXTRA_SH
  rw [or_by_position, shiftLeft_or_low n_ch 3 n_byte (by omega),
    shiftLeft_or_low extra 7 _ (by omega), shiftLeft_or_low swap 10 _ (by omega),
    shiftLeft_or_low pt 16 _ (by omega), shiftLeft_or_low fl 22 _ (by omega)]
  omega

/-- C8: for `is_float` in {0,1}, `pixel_type` in 0..31, `n_ch` in 0..15, `n_byte` in
0..7, `swap` in {0,1} and `extra` in 0..7, `get_transform_formatter` returns
`is_float*2^22 + pixel_type*2^16 + swap*2^10 + extra*2^7 + n_ch*2^3 + n_byte`; each
argument is recovered by shifting and masking its field, two in-range tuples
with the same result are equal, and the formatter of (0, 4, 3, 1, 0, 0) is
262169. -/
theorem get_transform_formatter_fields (fl pt n_ch n_byte swap extra : Nat)
    (hfl : fl < 2) (hpt : pt < 32) (hch : n_ch < 16) (hb : n_byte < 8) (hs : swap < 2)
    (he : extra < 8) :
    get_transform_formatter fl pt n_ch n_byte swap extra
      = fl * 2 ^ 22 + pt * 2 ^ 16 + swap * 2 ^ 10 + extra * 2 ^ 7 + n_ch * 2 ^ 3 + n_byte
    ∧ (get_transform_formatter fl pt n_ch n_byte swap extra >>> 22) &&& 1 = fl
    ∧ (get_transform_formatter fl pt n_ch n_byte swap extra >>> 16) &&& 31 = pt
    ∧ (get_transform_formatter fl pt n_ch n_byte swap extra >>> 10) &&& 1 = swap
    ∧ (get_transform_formatter fl pt n_ch n_byte swap extra >>> 7) &&& 7 = extra
    ∧ (get_transform_formatter fl pt n_ch n_byte swap extra >>> 3) &&& 15 = n_ch
    ∧ get_transform_formatter fl pt n_ch n_byte swap extra &&& 7 = n_byte
    ∧ (∀ fl' pt' n_ch' n_byte' swap' extra' : Nat,
        fl' < 2 → pt' < 32 → n_ch' < 16 → n_byte' < 8 → swap' < 2 → extra' < 8 →
        get_transform_formatter fl' pt' n_ch' n_byte' swap' extra'
          = get_transform_formatter fl pt n_ch n_byte swap extra →
        fl' = fl ∧ pt' = pt ∧ n_ch' = n_ch ∧ n_byte' = n_byte ∧ swap' = swap ∧ extra' = extra)
    ∧ get_transform_formatter 0 4 3 1 0 0 = 262169 := by
  have hsum := get_transform_formatter_eq_sum fl pt n_ch n_byte swap extra hpt hch hb hs he
  have m1 : ∀ x : Nat, x &&& 1 = x % 2 := fun x => Nat.and_one_is_mod x
  have m31 : ∀ x : Nat, x &&& 31 = x % 32 := fun x => Nat.and_pow_two_sub_one_eq_mod x 5
  have m7 : ∀ x : Nat, x &&& 7 = x % 8 := fun x => Nat.and_pow_two_sub_one_eq_mod x 3
  have m15 : ∀ x : Nat, x &&& 15 = x % 16 := fun x => Nat.and_pow_two_sub_one_eq_mod x 4
  refine ⟨hsum, ?_, ?_, ?_, ?_, ?_, ?_, ?_, ?_⟩
  · rw [Nat.shiftRight_eq_div_pow, m1, hsum]; omega
  · rw [Nat.shiftRight_eq_div_pow, m31, hsum]; omega
  · rw [Nat.shiftRight_eq_div_pow, m1, hsum]; omega
  · rw [Nat.shiftRight_eq_div_pow, m7, hsum]; omega
  · rw [Nat.shiftRight_eq_div_pow, m15, hsum]; omega
  · rw [m7, hsum]; omega
  · intro fl' pt' n_ch' n_byte' swap' extra' hfl' hpt' hch' hb' hs' he' heq
    rw [hsum, get_transform_formatter_eq_sum fl' pt' n_ch' n_byte' swap' extra' hpt' hch' hb'
      hs' he'] at heq
    omega
  · rw [get_transform_formatter_eq_sum 0 4 3 1 0 0 (by omega) (by omega) (by omega) (by omega)
      (by omega)]
    norm_num

/-- C8 at 8-bit RGB without swap and without alpha: the formatter is 0x40019. -/
theorem get_transform_formatter_fields_witness :
    get_transform_formatter 0 4 3 1 0 0 = 0 * 2 ^ 22 + 4 * 2 ^ 16 + 0 * 2 ^ 10 + 0 * 2 ^ 7 + 3 * 2 ^ 3 + 1
    ∧ get_transform_formatter 0 4 3 1 0 0 = 0x40019 :=
  ⟨(get_transform_formatter_fields 0 4 3 1 0 0 (by decide) (by decide) (by decide) (by decide)
      (by decide) (by decide)).1,
   (get_transform_formatter_fields 0 4 3 1 0 0 (by decide) (by decide) (by decide) (by decide)
      (by decide) (by decide)).2.2.2.2.2.2.2.2⟩

/-! ## C9: the white point check of `create_partial_profile` -/

/-- C9: called with a white point array that is not 1-dimensional of length 3,
`create_partial_profile` returns the null handle and makes no library call: no
profile is allocated and no tag is written. -/
theorem create_partial_profile_bad_white_point (L : Lcms) (desc cprt : List Byte)
    (is_glossy : Bool) (wtpt : NdArray cmsFloat64Number) (h : wtpt.shape ≠ [3]) :
    create_partial_profile L desc cprt is_glossy wtpt = (NULL, []) := by
  unfold create_partial_profile
  have hbad : wtpt.ndim ≠ 1 ∨ wtpt.dim 0 ≠ 3 := by
    unfold NdArray.ndim NdArray.dim
    rcases hs : wtpt.shape with _ | ⟨a, _ | ⟨b, rest⟩⟩
    · left; simp
    · right
      intro ha
      apply h
      rw [hs]
      simpa using ha
    · left; simp
  rw [if_pos hbad]

/-- C9 at a white point array of four entries. -/
theorem create_partial_profile_bad_white_point_witness :
    (⟨[4], fun _ => 0⟩ : NdArray cmsFloat64Number).shape ≠ [3]
    ∧ create_partial_profile sample_lcms [97] [98] true ⟨[4], fun _ => 0⟩ = (NULL, []) :=
  ⟨by decide,
   create_partial_profile_bad_white_point sample_lcms [97] [98] true ⟨[4], fun _ => 0⟩
     (by decide)⟩

/-! ## C4: the text `create_partial_profile` writes -/

/-- C4 fails: with the description `a`, line feed, `b`, the text passed to the
description tag write is the description as given, line feed included, and
not the description with the bytes outside [32, 126] removed. -/
theorem create_partial_profile_keeps_control_bytes :
    written_text (create_partial_profile sample_lcms [97, 10, 98] [99] true
        ⟨[3], fun _ => 0⟩).2 cmsSigProfileDescriptionTag = some [97, 10, 98]
    ∧ written_text (create_partial_profile sample_lcms [97, 10, 98] [99] true
        ⟨[3], fun _ => 0⟩).2 cmsSigProfileDescriptionTag
        ≠ some (stripNonAscii true [97, 10, 98])
    ∧ written_text (create_partial_profile sample_lcms [97, 10, 98] [99] true
        ⟨[3], fun _ => 0⟩).2 cmsSigProfileDescriptionTag
        ≠ some (stripNonAscii false [97, 10, 98]) := by
  refine ⟨by decide, by decide, by decide⟩

theorem setAsciiTag_log (L : Lcms) (log : List Call) (str : List Byte) (h : Handle) (tag : cmsTagSignature) :
    ∃ m rc, setAsciiTag L log str h tag =
      (rc, log ++ [Call.cmsMLUalloc 0 m, Call.cmsMLUsetASCII m (c_str str),
        Call.cmsWriteTag h tag (TagData.ptr m) rc, Call.cmsMLUfree m]) := by
  refine ⟨L.cmsMLUalloc log 0, L.cmsWriteTag (log ++ [Call.cmsMLUalloc 0 (L.cmsMLUalloc log 0)] ++
        [Call.cmsMLUsetASCII (L.cmsMLUalloc log 0) (c_str str)]) h tag (TagData.ptr (L.cmsMLUalloc log 0)), ?_⟩
  simp [setAsciiTag]

/-- C4, amended: `create_partial_profile` passes the description and the copyright
to their tag writes as the C strings they are, that is unchanged up to the
first NUL byte, with no byte stripped.  Whenever a text reaches the
description or the copyright tag write it is that C string, and when a
profile is returned both texts were written. -/
theorem create_partial_profile_text_unchanged (L : Lcms) (desc cprt : List Byte)
    (is_glossy : Bool) (wtpt : NdArray cmsFloat64Number) :
    ((create_partial_profile L desc cprt is_glossy wtpt).1 ≠ NULL →
      written_text (create_partial_profile L desc cprt is_glossy wtpt).2
          cmsSigProfileDescriptionTag = some (c_str desc)
      ∧ written_text (create_partial_profile L desc cprt is_glossy wtpt).2
          cmsSigCopyrightTag = some (c_str cprt))
    ∧ (∀ t, written_text (create_partial_profile L desc cprt is_glossy wtpt).2
          cmsSigProfileDescriptionTag = some t → t = c_str desc)
    ∧ (∀ t, written_text (create_partial_profile L desc cprt is_glossy wtpt).2
          cmsSigCopyrightTag = some t → t = c_str cprt) := by
  unfold create_partial_profile
  by_cases hw : wtpt.ndim ≠ 1 ∨ wtpt.dim 0 ≠ 3
  · rw [if_pos hw]
    simp [written_text, written_text_scan, NULL]
  · rw [if_neg hw]
    simp only []
    generalize L.cmsCreateProfilePlaceholder [] = hProfile
    by_cases hp : hProfile = NULL
    · rw [if_pos hp]
      simp [written_text, written_text_scan, NULL]
    · rw [if_neg hp]
      generalize L.cmsReflective ||| (if is_glossy = true then L.cmsGlossy else L.cmsMatte) = attr
      obtain ⟨m1, rc1, h1⟩ := setAsciiTag_log L ([] ++ [Call.cmsCreateProfilePlaceholder hProfile] ++ [Call.cmsSetProfileVersion hProfile double_2_4] ++
                      [Call.cmsSetDeviceClass hProfile cmsProfileClassSignature.cmsSigOutputClass] ++
                    [Call.cmsSetColorSpace hProfile cmsColorSpaceSignature.cmsSigRgbData] ++
                  [Call.cmsSetPCS hProfile cmsColorSpaceSignature.cmsSigLabData] ++
                [Call.cmsSetHeaderAttributes hProfile attr] ++
              [Call.creator hProfile 1515800399]) desc hProfile cmsSigProfileDescriptionTag
      rw [h1]
      simp only []
      cases rc1
      · simp [written_text, written_text_scan, NULL]
      · simp only [Bool.true_eq_false, if_false]
        generalize hl : ([] ++ [Call.cmsCreateProfilePlaceholder hProfile] ++ [Call.cmsSetProfileVersion hProfile double_2_4] ++
                      [Call.cmsSetDeviceClass hProfile cmsProfileClassSignature.cmsSigOutputClass] ++
                    [Call.cmsSetColorSpace hProfile cmsColorSpaceSignature.cmsSigRgbData] ++
                  [Call.cmsSetPCS hProfile cmsColorSpaceSignature.cmsSigLabData] ++
                [Call.cmsSetHeaderAttributes hProfile attr] ++
              [Call.creator hProfile 1515800399] ++ [Call.cmsMLUalloc 0 m1, Call.cmsMLUsetASCII m1 (c_str desc),
          Call.cmsWriteTag hProfile cmsTagSignature.cmsSigProfileDescriptionTag (TagData.ptr m1) true,
          Call.cmsMLUfree m1]) = log1
        obtain ⟨m2, rc2, h2⟩ := setAsciiTag_log L log1 cprt hProfile cmsSigCopyrightTag
        rw [h2]
        simp only []
        subst hl
        cases rc2
        · simp [written_text, written_text_scan, NULL]
        · simp only [Bool.true_eq_false, if_false]
          split
          · simp [written_text, written_text_scan, NULL]
          · simp [written_text, written_text_scan, NULL]

/-- C4, amended, at a description holding a line feed: the profile is returned and
the description reached its tag write with the line feed in place. -/
theorem create_partial_profile_text_unchanged_witness :
    (create_partial_profile sample_lcms [97, 10, 98] [99] true ⟨[3], fun _ => 0⟩).1 ≠ NULL
    ∧ written_text (create_partial_profile sample_lcms [97, 10, 98] [99] true
        ⟨[3], fun _ => 0⟩).2 cmsSigProfileDescriptionTag = some (c_str [97, 10, 98])
    ∧ written_text (create_partial_profile sample_lcms [97, 10, 98] [99] true
        ⟨[3], fun _ => 0⟩).2 cmsSigCopyrightTag = some (c_str [99]) :=
  ⟨by decide,
   (create_partial_profile_text_unchanged sample_lcms [97, 10, 98] [99] true
      ⟨[3], fun _ => 0⟩).1 (by decide)⟩

/-! ## C7: `get_available_b2an_list` -/

/-- C7 fails on a profile that holds the tag B2A1 and no other: the list names
B2A0 and B2A2, which the profile does not hold.  In every profile no name is
listed twice, and B2A0 (B2A2) is not listed when its read-back pointer is that
of B2A1. -/
theorem get_available_b2an_list_lists_absent_tags :
    get_available_b2an_list sample_lcms 1 = ["B2A1", "B2A0", "B2A2"]
    ∧ sample_lcms.cmsIsTag 1 cmsSigBToA0Tag = false
    ∧ sample_lcms.cmsIsTag 1 cmsSigBToA2Tag = false
    ∧ (∀ (L : Lcms) (hp : Handle), (get_available_b2an_list L hp).Nodup)
    ∧ (∀ (L : Lcms) (hp : Handle),
        L.cmsIsTag hp cmsSigBToA0Tag = true → L.cmsIsTag hp cmsSigBToA1Tag = true →
        L.cmsReadTag hp cmsSigBToA0Tag = L.cmsReadTag hp cmsSigBToA1Tag →
        "B2A0" ∉ get_available_b2an_list L hp)
    ∧ (∀ (L : Lcms) (hp : Handle),
        L.cmsIsTag hp cmsSigBToA2Tag = true → L.cmsIsTag hp cmsSigBToA1Tag = true →
        L.cmsReadTag hp cmsSigBToA2Tag = L.cmsReadTag hp cmsSigBToA1Tag →
        "B2A2" ∉ get_available_b2an_list L hp) := by
  refine ⟨by decide, by decide, by decide, ?_, ?_, ?_⟩
  · intro L hp
    unfold get_available_b2an_list
    simp only []
    generalize (if L.cmsIsTag hp cmsSigBToA0Tag = true then L.cmsReadTag hp cmsSigBToA0Tag
      else NULL) = p0
    generalize (if L.cmsIsTag hp cmsSigBToA1Tag = true then L.cmsReadTag hp cmsSigBToA1Tag
      else NULL) = p1
    generalize (if L.cmsIsTag hp cmsSigBToA2Tag = true then L.cmsReadTag hp cmsSigBToA2Tag
      else NULL) = p2
    split_ifs <;> decide
  · intro L hp h0 h1 he
    unfold get_available_b2an_list
    simp only [h0, h1, he, if_true]
    generalize (if L.cmsIsTag hp cmsSigBToA2Tag = true then L.cmsReadTag hp cmsSigBToA2Tag
      else NULL) = p2
    generalize L.cmsReadTag hp cmsSigBToA1Tag = p1
    split_ifs <;> first | contradiction | decide
  · intro L hp h2 h1 he
    unfold get_available_b2an_list
    simp only [h2, h1, he, if_true]
    generalize (if L.cmsIsTag hp cmsSigBToA0Tag = true then L.cmsReadTag hp cmsSigBToA0Tag
      else NULL) = p0
    generalize L.cmsReadTag hp cmsSigBToA1Tag = p1
    split_ifs <;> first | contradiction | decide

/-! ## The flattening loop of `add_lut16` -/

theorem clut_entry_for_pos (clut_c : NdArray Nat) (N c i ii iii a : Nat)
    (hii : ii < N) (hiii : iii < N) (ha : a < c) :
    clut_entry_for clut_c N c ((i * N * N + ii * N + iii) * c + a) = clut_c.elem [i, ii, iii, a] := by
  unfold clut_entry_for
  have hc : 0 < c := by omega
  have hN : 0 < N := by omega
  have h1 : ((i * N * N + ii * N + iii) * c + a) / c = i * N * N + ii * N + iii := by
    rw [Nat.add_comm, Nat.add_mul_div_right _ _ hc, Nat.div_eq_of_lt ha, Nat.zero_add]
  have h2 : ((i * N * N + ii * N + iii) * c + a) % c = a := by
    rw [Nat.add_comm, Nat.add_mul_mod_self_right, Nat.mod_eq_of_lt ha]
  have e : i * N * N + ii * N + iii = iii + (i * N + ii) * N := by ring
  have h3 : (i * N * N + ii * N + iii) / N = i * N + ii := by
    rw [e, Nat.add_mul_div_right _ _ hN, Nat.div_eq_of_lt hiii, Nat.zero_add]
  have h4 : (i * N * N + ii * N + iii) % N = iii := by
    rw [e, Nat.add_mul_mod_self_right, Nat.mod_eq_of_lt hiii]
  have h5 : (i * N + ii) / N = i := by
    rw [Nat.add_comm, Nat.add_mul_div_right _ _ hN, Nat.div_eq_of_lt hii, Nat.zero_add]
  have h6 : (i * N + ii) % N = ii := by
    rw [Nat.add_comm, Nat.add_mul_mod_self_right, Nat.mod_eq_of_lt hii]
  rw [h1, h2, h3, h4, h5, h6]

theorem foldl_blocks {α : Type} (F : List α → Nat → List α) (g : Nat → α) (S : Nat → Nat)
    (n : Nat) (hS : ∀ k, k < n → S k ≤ S (k + 1))
    (hF : ∀ t k, k < n → (F t k).length = t.length ∧
      ∀ j, (F t k)[j]? = if S k ≤ j ∧ j < S (k + 1) ∧ j < t.length then some (g j) else t[j]?)
    (t : List α) :
    ((List.range n).foldl F t).length = t.length ∧
      ∀ j, ((List.range n).foldl F t)[j]? =
        if S 0 ≤ j ∧ j < S n ∧ j < t.length then some (g j) else t[j]? := by
  induction n with
  | zero =>
    refine ⟨rfl, fun j => ?_⟩
    have : ¬(S 0 ≤ j ∧ j < S 0 ∧ j < t.length) := by omega
    simp [this]
  | succ m ih =>
    have ih' := ih (fun k hk => hS k (by omega)) (fun t k hk => hF t k (by omega))
    rw [List.range_succ, List.foldl_append, List.foldl_cons, List.foldl_nil]
    obtain ⟨hl, hg⟩ := ih'
    obtain ⟨hl2, hg2⟩ := hF ((List.range m).foldl F t) m (by omega)
    refine ⟨by rw [hl2, hl], fun j => ?_⟩
    rw [hg2, hg, hl]
    have hmono : S 0 ≤ S m := by
      clear hg2 hl2 hg hl ih hF
      induction m with
      | zero => exact Nat.le_refl _
      | succ p ihp => exact Nat.le_trans (ihp (fun k hk => hS k (by omega))) (hS p (by omega))
    have hstep := hS m (by omega)
    by_cases h1 : S m ≤ j ∧ j < S (m + 1) ∧ j < t.length
    · have h2 : S 0 ≤ j ∧ j < S (m + 1) ∧ j < t.length := by omega
      rw [if_pos h1, if_pos h2]
    · rw [if_neg h1]
      by_cases h3 : S 0 ≤ j ∧ j < S m ∧ j < t.length
      · have h2 : S 0 ≤ j ∧ j < S (m + 1) ∧ j < t.length := by omega
        rw [if_pos h3, if_pos h2]
      · have h2 : ¬(S 0 ≤ j ∧ j < S (m + 1) ∧ j < t.length) := by omega
        rw [if_neg h3, if_neg h2]

theorem set_block {α : Type} (t : List α) (idx : Nat) (v : α) (g : Nat → α) (hg : g idx = v) :
    (t.set idx v).length = t.length ∧
      ∀ j, (t.set idx v)[j]? = if idx ≤ j ∧ j < idx + 1 ∧ j < t.length then some (g j) else t[j]? := by
  refine ⟨List.length_set _ _ _, fun j => ?_⟩
  rw [List.getElem?_set]
  by_cases h : idx = j
  · subst h
    by_cases h2 : idx < t.length
    · have : idx ≤ idx ∧ idx < idx + 1 ∧ idx < t.length := by omega
      rw [if_pos rfl, if_pos h2, if_pos this, hg]
    · have : ¬(idx ≤ idx ∧ idx < idx + 1 ∧ idx < t.length) := by omega
      rw [if_pos rfl, if_neg h2, if_neg this]
      exact (List.getElem?_eq_none (by omega)).symm
  · have : ¬(idx ≤ j ∧ j < idx + 1 ∧ j < t.length) := by omega
    rw [if_neg h, if_neg this]

theorem clut_table_loop_spec (clut_c : NdArray Nat) (N c : Nat) (t : List Nat) :
    (clut_table_loop clut_c N c t).length = t.length ∧
      ∀ j, (clut_table_loop clut_c N c t)[j]? =
        if j < N * N * N * c ∧ j < t.length then some (clut_entry_for clut_c N c j) else t[j]? := by
  unfold clut_table_loop
  have key := foldl_blocks
    (fun clut_table i =>
      (List.range N).foldl (fun clut_table ii =>
        (List.range N).foldl (fun clut_table iii =>
          (List.range c).foldl (fun clut_table a =>
            clut_table.set ((i * N * N + ii * N + iii) * c + a) (clut_c.elem [i, ii, iii, a]))
            clut_table) clut_table) clut_table)
    (clut_entry_for clut_c N c) (fun i => i * N * N * c) N
    (fun k _ => by
      show k * N * N * c ≤ (k + 1) * N * N * c
      exact Nat.mul_le_mul_right _ (Nat.mul_le_mul_right _ (Nat.mul_le_mul_right _ (by omega))))
    (fun t i _ => by
      have key2 := foldl_blocks
        (fun clut_table ii =>
          (List.range N).foldl (fun clut_table iii =>
            (List.range c).foldl (fun clut_table a =>
              clut_table.set ((i * N * N + ii * N + iii) * c + a) (clut_c.elem [i, ii, iii, a]))
              clut_table) clut_table)
        (clut_entry_for clut_c N c) (fun ii => (i * N * N + ii * N) * c) N
        (fun k _ => by
          show (i * N * N + k * N) * c ≤ (i * N * N + (k + 1) * N) * c
          exact Nat.mul_le_mul_right _ (Nat.add_le_add_left (Nat.mul_le_mul_right _ (by omega)) _))
        (fun t ii hii => by
          have key3 := foldl_blocks
            (fun clut_table iii =>
              (List.range c).foldl (fun clut_table a =>
                clut_table.set ((i * N * N + ii * N + iii) * c + a) (clut_c.elem [i, ii, iii, a]))
                clut_table)
            (clut_entry_for clut_c N c) (fun iii => (i * N * N + ii * N + iii) * c) N
            (fun k _ => by
              show (i * N * N + ii * N + k) * c ≤ (i * N * N + ii * N + (k + 1)) * c
              exact Nat.mul_le_mul_right _ (by omega))
            (fun t iii hiii => by
              have key4 := foldl_blocks
                (fun clut_table a =>
                  clut_table.set ((i * N * N + ii * N + iii) * c + a) (clut_c.elem [i, ii, iii, a]))
                (clut_entry_for clut_c N c) (fun a => (i * N * N + ii * N + iii) * c + a) c
                (fun k _ => by
                  show (i * N * N + ii * N + iii) * c + k ≤ (i * N * N + ii * N + iii) * c + (k + 1)
                  omega)
                (fun t a ha =>
                  set_block t _ _ (clut_entry_for clut_c N c)
                    (clut_entry_for_pos clut_c N c i ii iii a hii hiii ha))
                t
              have e : (i * N * N + ii * N + (iii + 1)) * c = (i * N * N + ii * N + iii) * c + c := by
                ring
              simp only [e]
              simpa using key4)
            t
          have e : (i * N * N + (ii + 1) * N) * c = (i * N * N + ii * N + N) * c := by ring
          simp only [e]
          simpa using key3)
        t
      have e : (i + 1) * N * N * c = (i * N * N + N * N) * c := by ring
      simp only [e]
      simpa using key2)
    t
  simpa using key

/-! ## The calls of `add_lut16` -/

theorem table_values_length (table_c : NdArray Nat) (nEntries i : Nat) :
    (table_values table_c nEntries i).length = nEntries := by
  have h := foldl_blocks (fun (values : List Nat) ii => values.set ii (table_c.elem [ii, i]))
    (fun j => table_c.elem [j, i]) (fun k => k) nEntries (fun k _ => Nat.le_succ k)
    (fun t k _ => set_block t k _ (fun j => table_c.elem [j, i]) rfl)
    (List.replicate nEntries 0)
  unfold table_values
  rw [h.1, List.length_replicate]

theorem table_values_getElem? (table_c : NdArray Nat) (nEntries i ii : Nat) (h : ii < nEntries) :
    (table_values table_c nEntries i)[ii]? = some (table_c.elem [ii, i]) := by
  have hb := foldl_blocks (fun (values : List Nat) ii => values.set ii (table_c.elem [ii, i]))
    (fun j => table_c.elem [j, i]) (fun k => k) nEntries (fun k _ => Nat.le_succ k)
    (fun t k _ => set_block t k _ (fun j => table_c.elem [j, i]) rfl)
    (List.replicate nEntries 0)
  unfold table_values
  rw [hb.2 ii, List.length_replicate]
  have : 0 ≤ ii ∧ ii < nEntries ∧ ii < nEntries := ⟨Nat.zero_le _, h, h⟩
  rw [if_pos this]

theorem table_stage_fold_log (L : Lcms) (table_c : NdArray Nat) (nEntries : Nat) (l : List Nat) :
    ∀ st : List Handle × List Call, ∃ new,
      (l.foldl (table_stage_step L table_c nEntries) st).2 = st.2 ++ new
      ∧ ∀ c ∈ new, c.isToneCurveCall = true := by
  induction l with
  | nil => intro st; exact ⟨[], by simp, by simp⟩
  | cons i is ih =>
    intro st
    obtain ⟨new, h1, h2⟩ := ih (table_stage_step L table_c nEntries st i)
    refine ⟨Call.cmsBuildTabulatedToneCurve16 (nEntries % 2 ^ 32)
      (table_values table_c nEntries i)
      (L.cmsBuildTabulatedToneCurve16 st.2 (nEntries % 2 ^ 32)
        (table_values table_c nEntries i)) :: new, ?_, ?_⟩
    · rw [List.foldl_cons, h1]
      simp only [table_stage_step, List.append_assoc, List.singleton_append]
    · intro c hc
      rcases List.mem_cons.1 hc with h | h
      · subst h; rfl
      · exact h2 c h

theorem table_stage_log (L : Lcms) (log : List Call) (table_c : NdArray Nat) :
    ∃ new, (_table_stage L log table_c).2 = log ++ new
      ∧ ∀ c ∈ new, c.isToneCurveCall = true := by
  obtain ⟨new, h1, h2⟩ := table_stage_fold_log L table_c (table_c.dim 0)
    (List.range (table_c.dim 1)) (List.replicate (table_c.dim 1) NULL, log)
  refine ⟨new ++ [Call.cmsStageAllocToneCurves (table_c.dim 1 % 2 ^ 32)
    ((List.range (table_c.dim 1)).foldl (table_stage_step L table_c (table_c.dim 0))
      (List.replicate (table_c.dim 1) NULL, log)).1
    (_table_stage L log table_c).1], ?_, ?_⟩
  · simp only [_table_stage]
    rw [h1]
    simp only [List.append_assoc]
  · intro c hc
    rcases List.mem_append.1 hc with h | h
    · exact h2 c h
    · simp only [List.mem_singleton] at h
      subst h; rfl

theorem add_lut16_log (L : Lcms) (hp : Handle) (tag : String) (n_out_ch : Int)
    (clut pre_table post_table : NdArray Nat) (tag_sig : cmsTagSignature)
    (hshape : ¬ add_lut16_shape_mismatch n_out_ch clut pre_table post_table)
    (htag : lut_tag_lookup tag = some tag_sig)
    (halloc : L.cmsPipelineAlloc [] 3 (n_out_ch % 2 ^ 32).toNat ≠ NULL) :
    ∃ (pre post : List Call) (pre_stage clut_stage post_stage : Handle) (rc : Bool),
      add_lut16 L hp tag n_out_ch clut pre_table post_table =
        ((if rc = false then 0 else -1),
          [Call.cmsPipelineAlloc 3 (n_out_ch % 2 ^ 32).toNat
              (L.cmsPipelineAlloc [] 3 (n_out_ch % 2 ^ 32).toNat)] ++ pre ++
            [Call.cmsPipelineInsertStage (L.cmsPipelineAlloc [] 3 (n_out_ch % 2 ^ 32).toNat)
                cmsStageLoc.cmsAT_BEGIN pre_stage,
              Call.cmsStageAllocCLut16bit (clut.dim 0 % 2 ^ 32) 3 (n_out_ch % 2 ^ 32).toNat
                (clut_table_of clut (clut.dim 0) n_out_ch.toNat) clut_stage,
              Call.cmsPipelineInsertStage (L.cmsPipelineAlloc [] 3 (n_out_ch % 2 ^ 32).toNat)
                cmsStageLoc.cmsAT_END clut_stage] ++ post ++
            [Call.cmsPipelineInsertStage (L.cmsPipelineAlloc [] 3 (n_out_ch % 2 ^ 32).toNat)
                cmsStageLoc.cmsAT_END post_stage,
              Call.cmsWriteTag hp tag_sig
                (TagData.ptr (L.cmsPipelineAlloc [] 3 (n_out_ch % 2 ^ 32).toNat)) rc,
              Call.cmsPipelineFree (L.cmsPipelineAlloc [] 3 (n_out_ch % 2 ^ 32).toNat)])
      ∧ (∀ c ∈ pre, c.isToneCurveCall = true) ∧ (∀ c ∈ post, c.isToneCurveCall = true) := by
  unfold add_lut16
  simp only []
  have hshape' : ¬(pre_table.ndim ≠ 2 ∨ pre_table.dim 1 ≠ 3
      ∨ clut.ndim ≠ 3 + 1 ∨ (clut.dim 3 : Int) ≠ n_out_ch
      ∨ clut.dim 0 ≠ clut.dim 1 ∨ clut.dim 1 ≠ clut.dim 2
      ∨ post_table.ndim ≠ 2 ∨ (post_table.dim 1 : Int) ≠ n_out_ch) := hshape
  rw [if_neg hshape', htag]
  simp only []
  rw [if_neg halloc]
  generalize L.cmsPipelineAlloc [] 3 (n_out_ch % 2 ^ 32).toNat = pipeline
  obtain ⟨pre, hpre, hpre2⟩ := table_stage_log L
    ([] ++ [Call.cmsPipelineAlloc 3 (n_out_ch % 2 ^ 32).toNat pipeline]) pre_table
  rw [hpre]
  generalize (_table_stage L ([] ++ [Call.cmsPipelineAlloc 3 (n_out_ch % 2 ^ 32).toNat pipeline])
    pre_table).1 = pre_stage
  generalize L.cmsStageAllocCLut16bit _ _ _ _ _ = clut_stage
  generalize hlog : [] ++ [Call.cmsPipelineAlloc 3 (n_out_ch % 2 ^ 32).toNat pipeline] ++ pre ++
      [Call.cmsPipelineInsertStage pipeline cmsStageLoc.cmsAT_BEGIN pre_stage] ++
      [Call.cmsStageAllocCLut16bit (clut.dim 0 % 2 ^ 32) 3 (n_out_ch % 2 ^ 32).toNat
        (clut_table_of clut (clut.dim 0) n_out_ch.toNat) clut_stage] ++
      [Call.cmsPipelineInsertStage pipeline cmsStageLoc.cmsAT_END clut_stage] = log2
  obtain ⟨post, hpost, hpost2⟩ := table_stage_log L log2 post_table
  rw [hpost]
  generalize (_table_stage L log2 post_table).1 = post_stage
  generalize L.cmsWriteTag _ hp tag_sig _ = rc
  refine ⟨pre, post, pre_stage, clut_stage, post_stage, rc, ?_, hpre2, hpost2⟩
  subst hlog
  cases rc <;> simp

/-! ## C2: the layout of the flattened CLUT -/

theorem clut_table_of_spec (clut_c : NdArray Nat) (N c : Nat) :
    (clut_table_of clut_c N c).length = N * N * N * c
    ∧ ∀ i ii iii a, i < N → ii < N → iii < N → a < c →
        (clut_table_of clut_c N c)[((i * N + ii) * N + iii) * c + a]?
          = some (clut_c.elem [i, ii, iii, a]) := by
  obtain ⟨hl, hg⟩ := clut_table_loop_spec clut_c N c (List.replicate (N * N * N * c) 0)
  unfold clut_table_of
  refine ⟨by rw [hl, List.length_replicate], ?_⟩
  intro i ii iii a hi hii hiii ha
  rw [hg, List.length_replicate]
  have e : ((i * N + ii) * N + iii) * c + a = (i * N * N + ii * N + iii) * c + a := by ring
  have hlt : ((i * N + ii) * N + iii) * c + a < N * N * N * c := by
    have h1 : (i * N + ii) + 1 ≤ N * N := by
      calc (i * N + ii) + 1 ≤ i * N + N := by omega
        _ = (i + 1) * N := by ring
        _ ≤ N * N := Nat.mul_le_mul_right _ hi
    have h2 : ((i * N + ii) * N + iii) + 1 ≤ N * N * N := by
      calc ((i * N + ii) * N + iii) + 1 ≤ (i * N + ii) * N + N := by omega
        _ = ((i * N + ii) + 1) * N := by ring
        _ ≤ N * N * N := Nat.mul_le_mul_right _ h1
    calc ((i * N + ii) * N + iii) * c + a < ((i * N + ii) * N + iii) * c + c := by omega
      _ = (((i * N + ii) * N + iii) + 1) * c := by ring
      _ ≤ N * N * N * c := Nat.mul_le_mul_right _ h2
  rw [if_pos ⟨hlt, hlt⟩, e, clut_entry_for_pos clut_c N c i ii iii a hii hiii ha]

/-! ## C1: the validation of `add_lut16` -/

/-- C1: `add_lut16` returns 0 and makes no library call, so writes nothing to the
profile, whenever `pre_table` is not 2-dimensional, `pre_table.shape[1] != 3`,
`clut` is not 4-dimensional, `clut.shape[3] != n_out_ch`, `clut.shape[0] !=
clut.shape[1]`, `clut.shape[1] != clut.shape[2]`, `post_table` is not 2-dimensional,
`post_table.shape[1] != n_out_ch`, or `tag` is not one of the seven registered
names.  When none of these holds and the pipeline is allocated, the run makes
one `cmsWriteTag` call, on the profile, under the tag's signature, with the
pipeline; when a tag write of the run succeeded, `add_lut16` returns -1. -/
theorem add_lut16_validation (L : Lcms) (hp : Handle) (tag : String) (n_out_ch : Int)
    (clut pre_table post_table : NdArray Nat) :
    ((pre_table.ndim ≠ 2 ∨ pre_table.dim 1 ≠ 3 ∨ clut.ndim ≠ 4 ∨ (clut.dim 3 : Int) ≠ n_out_ch
        ∨ clut.dim 0 ≠ clut.dim 1 ∨ clut.dim 1 ≠ clut.dim 2 ∨ post_table.ndim ≠ 2
        ∨ (post_table.dim 1 : Int) ≠ n_out_ch
        ∨ tag ∉ ["A2B0", "A2B1", "A2B2", "B2A0", "B2A1", "B2A2", "gamt"]) →
      add_lut16 L hp tag n_out_ch clut pre_table post_table = (0, []))
    ∧ (¬(pre_table.ndim ≠ 2 ∨ pre_table.dim 1 ≠ 3 ∨ clut.ndim ≠ 4
          ∨ (clut.dim 3 : Int) ≠ n_out_ch
          ∨ clut.dim 0 ≠ clut.dim 1 ∨ clut.dim 1 ≠ clut.dim 2 ∨ post_table.ndim ≠ 2
          ∨ (post_table.dim 1 : Int) ≠ n_out_ch
          ∨ tag ∉ ["A2B0", "A2B1", "A2B2", "B2A0", "B2A1", "B2A2", "gamt"]) →
        L.cmsPipelineAlloc [] 3 (n_out_ch % 2 ^ 32).toNat ≠ NULL →
        (∃ tag_sig rc, lut_tag_lookup tag = some tag_sig
          ∧ Call.cmsWriteTag hp tag_sig
              (TagData.ptr (L.cmsPipelineAlloc [] 3 (n_out_ch % 2 ^ 32).toNat)) rc
            ∈ (add_lut16 L hp tag n_out_ch clut pre_table post_table).2
          ∧ (∀ c ∈ (add_lut16 L hp tag n_out_ch clut pre_table post_table).2,
              c.isWriteTag = true → c = Call.cmsWriteTag hp tag_sig
                (TagData.ptr (L.cmsPipelineAlloc [] 3 (n_out_ch % 2 ^ 32).toNat)) rc))
        ∧ ((∃ hProfile sig data, Call.cmsWriteTag hProfile sig data true
              ∈ (add_lut16 L hp tag n_out_ch clut pre_table post_table).2) →
            (add_lut16 L hp tag n_out_ch clut pre_table post_table).1 = -1)) := by
  constructor
  · intro h
    by_cases hs : add_lut16_shape_mismatch n_out_ch clut pre_table post_table
    · unfold add_lut16
      have hs' : pre_table.ndim ≠ 2 ∨ pre_table.dim 1 ≠ 3
          ∨ clut.ndim ≠ 3 + 1 ∨ (clut.dim 3 : Int) ≠ n_out_ch
          ∨ clut.dim 0 ≠ clut.dim 1 ∨ clut.dim 1 ≠ clut.dim 2
          ∨ post_table.ndim ≠ 2 ∨ (post_table.dim 1 : Int) ≠ n_out_ch := hs
      simp only []
      rw [if_pos hs']
    · have ht : tag ∉ ["A2B0", "A2B1", "A2B2", "B2A0", "B2A1", "B2A2", "gamt"] := by
        unfold add_lut16_shape_mismatch at hs
        tauto
      exact add_lut16_of_lookup_none L hp tag n_out_ch clut pre_table post_table
        (lut_tag_lookup_of_not_mem tag ht)
  · intro h halloc
    have hs : ¬ add_lut16_shape_mismatch n_out_ch clut pre_table post_table := by
      unfold add_lut16_shape_mismatch
      tauto
    have ht : tag ∈ lut_tag_names := by
      unfold lut_tag_names
      tauto
    obtain ⟨tag_sig, hsig⟩ := lut_tag_lookup_of_mem tag ht
    obtain ⟨pre, post, pre_stage, clut_stage, post_stage, rc, hrun, hpre, hpost⟩ :=
      add_lut16_log L hp tag n_out_ch clut pre_table post_table tag_sig hs hsig halloc
    rw [hrun]
    have hw : ∀ c : Call, c.isToneCurveCall = true → c.isWriteTag = false := by
      intro c hc
      cases c <;> simp_all [Call.isToneCurveCall, Call.isWriteTag]
    have honly : ∀ c ∈ ([Call.cmsPipelineAlloc 3 (n_out_ch % 2 ^ 32).toNat
              (L.cmsPipelineAlloc [] 3 (n_out_ch % 2 ^ 32).toNat)] ++ pre ++
            [Call.cmsPipelineInsertStage (L.cmsPipelineAlloc [] 3 (n_out_ch % 2 ^ 32).toNat)
                cmsStageLoc.cmsAT_BEGIN pre_stage,
              Call.cmsStageAllocCLut16bit (clut.dim 0 % 2 ^ 32) 3 (n_out_ch % 2 ^ 32).toNat
                (clut_table_of clut (clut.dim 0) n_out_ch.toNat) clut_stage,
              Call.cmsPipelineInsertStage (L.cmsPipelineAlloc [] 3 (n_out_ch % 2 ^ 32).toNat)
                cmsStageLoc.cmsAT_END clut_stage] ++ post ++
            [Call.cmsPipelineInsertStage (L.cmsPipelineAlloc [] 3 (n_out_ch % 2 ^ 32).toNat)
                cmsStageLoc.cmsAT_END post_stage,
              Call.cmsWriteTag hp tag_sig
                (TagData.ptr (L.cmsPipelineAlloc [] 3 (n_out_ch % 2 ^ 32).toNat)) rc,
              Call.cmsPipelineFree (L.cmsPipelineAlloc [] 3 (n_out_ch % 2 ^ 32).toNat)]),
        c.isWriteTag = true → c = Call.cmsWriteTag hp tag_sig
          (TagData.ptr (L.cmsPipelineAlloc [] 3 (n_out_ch % 2 ^ 32).toNat)) rc := by
      intro c hc hcw
      simp only [List.mem_append, List.mem_cons, List.mem_singleton, List.mem_nil_iff,
        or_false] at hc
      rcases hc with (((hc | hc) | hc | hc | hc) | hc) | hc | hc | hc
      · subst hc; simp [Call.isWriteTag] at hcw
      · have := hw c (hpre c hc); rw [this] at hcw; cases hcw
      · subst hc; simp [Call.isWriteTag] at hcw
      · subst hc; simp [Call.isWriteTag] at hcw
      · subst hc; simp [Call.isWriteTag] at hcw
      · have := hw c (hpost c hc); rw [this] at hcw; cases hcw
      · subst hc; simp [Call.isWriteTag] at hcw
      · exact hc
      · subst hc; simp [Call.isWriteTag] at hcw
    refine ⟨⟨tag_sig, rc, hsig, by simp, honly⟩, ?_⟩
    rintro ⟨hProfile, sig, data, hmem⟩
    have := honly _ hmem rfl
    injection this with _ _ _ hrc
    subst hrc
    simp

/-- C2: when the arrays pass the validation of `add_lut16`, the tag is registered
and the pipeline is allocated, the run hands one buffer to
`cmsStageAllocCLut16bit`; with `N = clut.shape[0]` its length is
`N * N * N * n_out_ch`, and for `i, ii, iii < N` and `a < n_out_ch` it holds
`clut(i, ii, iii, a)` at position `((i * N + ii) * N + iii) * n_out_ch + a`. -/
theorem add_lut16_clut_table_layout (L : Lcms) (hp : Handle) (tag : String) (n_out_ch : Int)
    (clut pre_table post_table : NdArray Nat)
    (hshape : ¬(pre_table.ndim ≠ 2 ∨ pre_table.dim 1 ≠ 3 ∨ clut.ndim ≠ 4
          ∨ (clut.dim 3 : Int) ≠ n_out_ch
          ∨ clut.dim 0 ≠ clut.dim 1 ∨ clut.dim 1 ≠ clut.dim 2 ∨ post_table.ndim ≠ 2
          ∨ (post_table.dim 1 : Int) ≠ n_out_ch))
    (htag : tag ∈ ["A2B0", "A2B1", "A2B2", "B2A0", "B2A1", "B2A2", "gamt"])
    (halloc : L.cmsPipelineAlloc [] 3 (n_out_ch % 2 ^ 32).toNat ≠ NULL) :
    ∃ (clut_table : List Nat) (clut_stage : Handle),
      Call.cmsStageAllocCLut16bit (clut.dim 0 % 2 ^ 32) 3 (n_out_ch % 2 ^ 32).toNat clut_table
          clut_stage ∈ (add_lut16 L hp tag n_out_ch clut pre_table post_table).2
      ∧ (∀ g i o t r, Call.cmsStageAllocCLut16bit g i o t r
            ∈ (add_lut16 L hp tag n_out_ch clut pre_table post_table).2 → t = clut_table)
      ∧ (clut_table.length : Int) = clut.dim 0 * clut.dim 0 * clut.dim 0 * n_out_ch
      ∧ ∀ i ii iii a : Nat, i < clut.dim 0 → ii < clut.dim 0 → iii < clut.dim 0 →
          (a : Int) < n_out_ch →
          clut_table[((i * clut.dim 0 + ii) * clut.dim 0 + iii) * n_out_ch.toNat + a]?
            = some (clut.elem [i, ii, iii, a]) := by
  have hs : ¬ add_lut16_shape_mismatch n_out_ch clut pre_table post_table := hshape
  obtain ⟨tag_sig, hsig⟩ := lut_tag_lookup_of_mem tag htag
  obtain ⟨pre, post, pre_stage, clut_stage, post_stage, rc, hrun, hpre, hpost⟩ :=
    add_lut16_log L hp tag n_out_ch clut pre_table post_table tag_sig hs hsig halloc
  have hn : (clut.dim 3 : Int) = n_out_ch := by
    by_contra hne
    exact hshape (Or.inr (Or.inr (Or.inr (Or.inl hne))))
  obtain ⟨hlen, hget⟩ := clut_table_of_spec clut (clut.dim 0) n_out_ch.toNat
  have hnot : ∀ c : Call, c.isToneCurveCall = true →
      ∀ g i o t r, c ≠ Call.cmsStageAllocCLut16bit g i o t r := by
    intro c hc g i o t r he
    subst he
    simp [Call.isToneCurveCall] at hc
  refine ⟨clut_table_of clut (clut.dim 0) n_out_ch.toNat, clut_stage, ?_, ?_, ?_, ?_⟩
  · rw [hrun]
    simp
  · intro g i o t r hmem
    rw [hrun] at hmem
    simp only [List.mem_append, List.mem_cons, List.mem_singleton, List.mem_nil_iff,
      or_false] at hmem
    rcases hmem with (((hc | hc) | hc | hc | hc) | hc) | hc | hc | hc
    · cases hc
    · exact absurd rfl (hnot _ (hpre _ hc) g i o t r)
    · cases hc
    · injection hc with _ _ _ h4 _
    · cases hc
    · exact absurd rfl (hnot _ (hpost _ hc) g i o t r)
    · cases hc
    · cases hc
    · cases hc
  · rw [hlen, ← hn]
    simp
  · intro i ii iii a hi hii hiii ha
    exact hget i ii iii a hi hii hiii (by omega)

/-- C1 at a CLUT whose first three extents are 2, 3, 2 (rejected), and at the sample
CLUT with the sample library, where the tag write succeeds. -/
theorem add_lut16_validation_witness :
    add_lut16 sample_lcms 1 "A2B0" 3 ⟨[2, 3, 2, 3], fun _ => 0⟩ sample_table sample_table = (0, [])
    ∧ (add_lut16 sample_lcms 1 "A2B0" 3 sample_clut sample_table sample_table).1 = -1 :=
  ⟨(add_lut16_validation sample_lcms 1 "A2B0" 3 ⟨[2, 3, 2, 3], fun _ => 0⟩ sample_table
      sample_table).1 (by decide),
   ((add_lut16_validation sample_lcms 1 "A2B0" 3 sample_clut sample_table sample_table).2
      (by decide) (by decide)).2 ⟨1, cmsSigAToB0Tag, TagData.ptr 1, by decide⟩⟩

/-- C2 at the sample CLUT: the buffer has 24 entries and holds entry (1, 0, 1, 2),
which is 1012, at position 17. -/
theorem add_lut16_clut_table_layout_witness :
    ∃ (clut_table : List Nat) (clut_stage : Handle),
      Call.cmsStageAllocCLut16bit 2 3 3 clut_table clut_stage
          ∈ (add_lut16 sample_lcms 1 "A2B0" 3 sample_clut sample_table sample_table).2
      ∧ clut_table.length = 24
      ∧ clut_table[((1 * 2 + 0) * 2 + 1) * 3 + 2]? = some 1012 := by
  obtain ⟨t, s, h1, _, h3, h4⟩ := add_lut16_clut_table_layout sample_lcms 1 "A2B0" 3 sample_clut
    sample_table sample_table (by decide) (by decide) (by decide)
  refine ⟨t, s, h1, ?_, ?_⟩
  · have : (t.length : Int) = 24 := h3
    exact_mod_cast this
  · exact h4 1 0 1 2 (by decide) (by decide) (by decide) (by decide)

/-! ## Stores into the output array -/

theorem store_rows_fold (w : Nat) (f : Nat → Nat → Nat) (n : Nat) (a : StridedArray)
    (hdisj : ∀ i i' k k', i < n → i' < n → k < w → k' < w →
      a.data i 0 + (k : Int) = a.data i' 0 + (k' : Int) → i = i') :
    ((List.range n).foldl (fun o i => o.store (o.data i 0) w (f i)) a).shape = a.shape
    ∧ ((List.range n).foldl (fun o i => o.store (o.data i 0) w (f i)) a).strides = a.strides
    ∧ ((List.range n).foldl (fun o i => o.store (o.data i 0) w (f i)) a).ptr = a.ptr
    ∧ (∀ i k, i < n → k < w →
        ((List.range n).foldl (fun o i => o.store (o.data i 0) w (f i)) a).mem
          (a.data i 0 + (k : Int)) = f i k)
    ∧ (∀ q, (∀ i k, i < n → k < w → q ≠ a.data i 0 + (k : Int)) →
        ((List.range n).foldl (fun o i => o.store (o.data i 0) w (f i)) a).mem q = a.mem q) := by
  induction n with
  | zero =>
    exact ⟨rfl, rfl, rfl, fun i k hi => absurd hi (Nat.not_lt_zero _), fun q _ => rfl⟩
  | succ m ih =>
    obtain ⟨hs, hst, hp, hset, hkeep⟩ := ih (fun i i' k k' hi hi' hk hk' h =>
      hdisj i i' k k' (by omega) (by omega) hk hk' h)
    rw [List.range_succ, List.foldl_append, List.foldl_cons, List.foldl_nil]
    generalize (List.range m).foldl (fun o i => o.store (o.data i 0) w (f i)) a = r at hs hst hp hset hkeep
    have hdata : r.data m 0 = a.data m 0 := by
      unfold StridedArray.data StridedArray.stride
      rw [hst, hp]
    rw [hdata]
    refine ⟨hs, hst, hp, ?_, ?_⟩
    · intro i k hi hk
      by_cases him : i = m
      · subst him
        have hin : a.data i 0 ≤ a.data i 0 + (k : Int) ∧ a.data i 0 + (k : Int) < a.data i 0 + (w : Int) := by
          constructor <;> omega
        simp only [StridedArray.store]
        rw [if_pos hin]
        congr 1
        omega
      · have hout : ¬(a.data m 0 ≤ a.data i 0 + (k : Int)
            ∧ a.data i 0 + (k : Int) < a.data m 0 + (w : Int)) := by
          rintro ⟨h1, h2⟩
          apply him
          apply hdisj i m k (a.data i 0 + (k : Int) - a.data m 0).toNat (by omega) (by omega) hk
            (by omega)
          omega
        simp only [StridedArray.store]
        rw [if_neg hout]
        exact hset i k (by omega) hk
    · intro q hq
      have hout : ¬(a.data m 0 ≤ q ∧ q < a.data m 0 + (w : Int)) := by
        rintro ⟨h1, h2⟩
        apply hq m (q - a.data m 0).toNat (by omega) (by omega)
        omega
      simp only [StridedArray.store]
      rw [if_neg hout]
      exact hkeep q (fun i k hi hk => hq i k (by omega) hk)

theorem row_pointers_disjoint (a : StridedArray) (w : Nat) (hw : (w : Int) ≤ |a.stride 0|)
    (i i' k k' : Nat) (hk : k < w) (hk' : k' < w)
    (h : a.data i 0 + (k : Int) = a.data i' 0 + (k' : Int)) : i = i' := by
  by_contra hne
  unfold StridedArray.data at h
  have h1 : ((i : Int) - (i' : Int)) * a.stride 0 = (k' : Int) - (k : Int) := by
    have : ((i : Int) - (i' : Int)) * a.stride 0 = (i : Int) * a.stride 0 - (i' : Int) * a.stride 0 := by
      ring
    rw [this]
    omega
  have h2 : |((i : Int) - (i' : Int)) * a.stride 0| = |(i : Int) - (i' : Int)| * |a.stride 0| :=
    abs_mul _ _
  have h3 : (1 : Int) ≤ |(i : Int) - (i' : Int)| := by
    apply Int.one_le_abs
    omega
  have h4 : |a.stride 0| ≤ |(i : Int) - (i' : Int)| * |a.stride 0| := by
    have := mul_le_mul_of_nonneg_right h3 (abs_nonneg (a.stride 0))
    simpa using this
  have h5 : |(k' : Int) - (k : Int)| < (w : Int) := by
    rw [abs_lt]
    constructor <;> omega
  rw [h1] at h2
  omega

theorem unchecked_elem_of_layout (r a : StridedArray) (hst : r.strides = a.strides)
    (hptr : r.ptr = a.ptr) (i c : Nat) : r.unchecked.elem [i, c] = r.mem (a.data i c) := by
  unfold StridedArray.unchecked StridedArray.data StridedArray.stride
  rw [hst, hptr]
  rfl

theorem load_row (a : StridedArray) (i n : Nat) (h : a.stride 1 = 1) :
    a.load (a.data i 0) n = a.unchecked.row i n := by
  unfold StridedArray.load NdArray.row StridedArray.unchecked StridedArray.data
  apply List.map_congr_left
  intro c _
  simp [h]

/-- C5 fails on an array whose rows are not stored entry next to entry.  For the view
`input[:, ::2]` of shape (2, 3), whose rows are 0, 2, 4 and 6, 8, 10, and a pipeline of
three channels that returns its input, `eval_lut16` returns -1 and the output rows are
0, 1, 2 and 6, 7, 8: the library is handed the pointer `data(i, 0)` and reads the
three values stored from there on, not the three entries of row `i`.  What holds in
general, for a registered tag whose pipeline can be read: a shape that does not
fit gives 0 and leaves `output_array` as it was; a shape that fits gives -1; and
when both arrays have a column stride of one element and the rows of
`output_array` do not overlap, output row `i` is the pipeline's evaluation of
input row `i`, all other memory of `output_array` being as it was. -/
theorem eval_lut16_ignores_strides :
    (∃ out, eval_lut16 sample_lcms 1 "B2A1" sliced_input zero_output = some (-1, out)
        ∧ sample_lcms.cmsReadTag 1 cmsSigBToA1Tag = 7
        ∧ sliced_input.unchecked.row 0 3 = [0, 2, 4]
        ∧ sliced_input.unchecked.row 1 3 = [6, 8, 10]
        ∧ (List.range 3).map (sample_lcms.cmsPipelineEval16 7 (sliced_input.unchecked.row 0 3))
            = [0, 2, 4]
        ∧ (List.range 3).map (sample_lcms.cmsPipelineEval16 7 (sliced_input.unchecked.row 1 3))
            = [6, 8, 10]
        ∧ out.unchecked.row 0 3 = [0, 1, 2]
        ∧ out.unchecked.row 1 3 = [6, 7, 8])
    ∧ (∀ (L : Lcms) (hp : Handle) (tag : String) (tag_sig : cmsTagSignature)
        (input_array output_array : StridedArray),
        lut_tag_lookup tag = some tag_sig → L.cmsReadTag hp tag_sig ≠ NULL →
        ((input_array.ndim ≠ 2
            ∨ input_array.dim 1 ≠ L.cmsPipelineInputChannels (L.cmsReadTag hp tag_sig)
            ∨ output_array.ndim ≠ 2
            ∨ output_array.dim 1 ≠ L.cmsPipelineOutputChannels (L.cmsReadTag hp tag_sig)
            ∨ input_array.dim 0 ≠ output_array.dim 0) →
          eval_lut16 L hp tag input_array output_array = some (0, output_array))
        ∧ (¬(input_array.ndim ≠ 2
            ∨ input_array.dim 1 ≠ L.cmsPipelineInputChannels (L.cmsReadTag hp tag_sig)
            ∨ output_array.ndim ≠ 2
            ∨ output_array.dim 1 ≠ L.cmsPipelineOutputChannels (L.cmsReadTag hp tag_sig)
            ∨ input_array.dim 0 ≠ output_array.dim 0) →
          (∃ out, eval_lut16 L hp tag input_array output_array = some (-1, out))
          ∧ (input_array.stride 1 = 1 → output_array.stride 1 = 1 →
              (L.cmsPipelineOutputChannels (L.cmsReadTag hp tag_sig) : Int)
                ≤ |output_array.stride 0| →
              ∃ out, eval_lut16 L hp tag input_array output_array = some (-1, out)
                ∧ out.shape = output_array.shape
                ∧ (∀ i c, i < input_array.dim 0 →
                    c < L.cmsPipelineOutputChannels (L.cmsReadTag hp tag_sig) →
                    out.unchecked.elem [i, c] = L.cmsPipelineEval16 (L.cmsReadTag hp tag_sig)
                      (input_array.unchecked.row i (input_array.dim 1)) c)
                ∧ (∀ q, (∀ i c, i < input_array.dim 0 →
                    c < L.cmsPipelineOutputChannels (L.cmsReadTag hp tag_sig) →
                    q ≠ output_array.data i c) → out.mem q = output_array.mem q)))) := by
  refine ⟨⟨_, rfl, by decide, by decide, by decide, by decide, by decide, by decide,
    by decide⟩, ?_⟩
  intro L hp tag tag_sig input_array output_array htag hpipe
  constructor
  · intro hbad
    unfold eval_lut16
    simp only [htag]
    rw [if_neg hpipe, if_pos hbad]
  · intro hgood
    have hrun : eval_lut16 L hp tag input_array output_array
        = some (-1, (List.range (input_array.dim 0)).foldl (fun output_c i =>
            output_c.store (output_c.data i 0)
              (L.cmsPipelineOutputChannels (L.cmsReadTag hp tag_sig))
              (L.cmsPipelineEval16 (L.cmsReadTag hp tag_sig)
                (input_array.load (input_array.data i 0)
                  (L.cmsPipelineInputChannels (L.cmsReadTag hp tag_sig))))) output_array) := by
      unfold eval_lut16
      simp only [htag]
      rw [if_neg hpipe, if_neg hgood]
    refine ⟨⟨_, hrun⟩, ?_⟩
    intro hin hout hrows
    obtain ⟨hs, hst, hptr, hset, hkeep⟩ := store_rows_fold
      (L.cmsPipelineOutputChannels (L.cmsReadTag hp tag_sig))
      (fun i => L.cmsPipelineEval16 (L.cmsReadTag hp tag_sig)
        (input_array.load (input_array.data i 0)
          (L.cmsPipelineInputChannels (L.cmsReadTag hp tag_sig))))
      (input_array.dim 0) output_array
      (fun i i' k k' _ _ hk hk' h =>
        row_pointers_disjoint output_array _ hrows i i' k k' hk hk' h)
    have hcols : input_array.dim 1 = L.cmsPipelineInputChannels (L.cmsReadTag hp tag_sig) := by
      by_contra h
      exact hgood (Or.inr (Or.inl h))
    have hdata : ∀ i c : Nat, output_array.data i c = output_array.data i 0 + (c : Int) := by
      intro i c
      unfold StridedArray.data
      rw [hout]
      simp
    refine ⟨_, hrun, hs, ?_, ?_⟩
    · intro i c hi hc
      have := hset i c hi hc
      rw [← hdata] at this
      rw [hcols, ← load_row input_array i _ hin, ← this]
      exact unchecked_elem_of_layout _ output_array hst hptr i c
    · intro q hq
      apply hkeep q
      intro i k hi hk
      rw [← hdata]
      exact hq i k hi hk

/-! ## C6: `eval_pre_table` -/

theorem table_curve_calls_append (table_c : NdArray Nat) (cs : List Handle) (h : Handle) :
    table_curve_calls table_c (cs ++ [h]) =
      table_curve_calls table_c cs ++
        [Call.cmsBuildTabulatedToneCurve16 (table_c.dim 0 % 2 ^ 32)
          (table_values table_c (table_c.dim 0) cs.length) h] := by
  unfold table_curve_calls
  rw [List.length_append, List.length_singleton, List.range_succ,
    List.zipWith_append _ _ _ _ _ (by simp)]
  rfl

theorem table_stage_fold_exact (L : Lcms) (table_c : NdArray Nat) (nCh : Nat) (log : List Call) :
    ∀ k, k ≤ nCh → ∃ cs : List Handle, cs.length = k ∧
      (List.range k).foldl (table_stage_step L table_c (table_c.dim 0))
          (List.replicate nCh NULL, log)
        = (cs ++ List.replicate (nCh - k) NULL, log ++ table_curve_calls table_c cs) := by
  intro k
  induction k with
  | zero =>
    intro _
    exact ⟨[], rfl, by simp [table_curve_calls]⟩
  | succ m ih =>
    intro hk
    obtain ⟨cs, hlen, hfold⟩ := ih (by omega)
    refine ⟨cs ++ [L.cmsBuildTabulatedToneCurve16 (log ++ table_curve_calls table_c cs)
      (table_c.dim 0 % 2 ^ 32) (table_values table_c (table_c.dim 0) m)], by simp [hlen], ?_⟩
    rw [List.range_succ, List.foldl_append, hfold, List.foldl_cons, List.foldl_nil,
      table_curve_calls_append, hlen]
    unfold table_stage_step
    simp only []
    have hrep : List.replicate (nCh - m) NULL = NULL :: List.replicate (nCh - (m + 1)) NULL := by
      have : nCh - m = (nCh - (m + 1)) + 1 := by omega
      rw [this, List.replicate_succ]
    rw [List.set_append_right _ _ (by omega), hlen, Nat.sub_self, hrep, List.set_cons_zero]
    simp only [List.append_assoc, List.singleton_append]

theorem table_stage_exact (L : Lcms) (log : List Call) (table_c : NdArray Nat) :
    ∃ (curves : List Handle) (stage : Handle), curves.length = table_c.dim 1 ∧
      _table_stage L log table_c =
        (stage, log ++ table_curve_calls table_c curves ++
          [Call.cmsStageAllocToneCurves (table_c.dim 1 % 2 ^ 32) curves stage]) := by
  obtain ⟨cs, hlen, hfold⟩ := table_stage_fold_exact L table_c (table_c.dim 1) log
    (table_c.dim 1) (Nat.le_refl _)
  refine ⟨cs, L.cmsStageAllocToneCurves (log ++ table_curve_calls table_c cs)
    (table_c.dim 1 % 2 ^ 32) cs, hlen, ?_⟩
  unfold _table_stage
  simp only []
  rw [hfold]
  simp

theorem add_lut16_log_exact (L : Lcms) (hp : Handle) (tag : String) (n_out_ch : Int)
    (clut pre_table post_table : NdArray Nat) (tag_sig : cmsTagSignature)
    (hshape : ¬ add_lut16_shape_mismatch n_out_ch clut pre_table post_table)
    (htag : lut_tag_lookup tag = some tag_sig)
    (halloc : L.cmsPipelineAlloc [] 3 (n_out_ch % 2 ^ 32).toNat ≠ NULL) :
    ∃ (pre_curves post_curves : List Handle) (pre_stage clut_stage post_stage : Handle)
      (rc : Bool),
      pre_curves.length = pre_table.dim 1 ∧ post_curves.length = post_table.dim 1
      ∧ add_lut16 L hp tag n_out_ch clut pre_table post_table =
        ((if rc = false then 0 else -1),
          add_lut16_calls hp tag_sig n_out_ch clut pre_table post_table
            (L.cmsPipelineAlloc [] 3 (n_out_ch % 2 ^ 32).toNat) pre_curves post_curves
            pre_stage clut_stage post_stage rc) := by
  unfold add_lut16
  simp only []
  have hshape' : ¬(pre_table.ndim ≠ 2 ∨ pre_table.dim 1 ≠ 3
      ∨ clut.ndim ≠ 3 + 1 ∨ (clut.dim 3 : Int) ≠ n_out_ch
      ∨ clut.dim 0 ≠ clut.dim 1 ∨ clut.dim 1 ≠ clut.dim 2
      ∨ post_table.ndim ≠ 2 ∨ (post_table.dim 1 : Int) ≠ n_out_ch) := hshape
  rw [if_neg hshape', htag]
  simp only []
  rw [if_neg halloc]
  generalize L.cmsPipelineAlloc [] 3 (n_out_ch % 2 ^ 32).toNat = pipeline
  obtain ⟨pre_curves, pre_stage, hprelen, hpre⟩ := table_stage_exact L
    ([] ++ [Call.cmsPipelineAlloc 3 (n_out_ch % 2 ^ 32).toNat pipeline]) pre_table
  rw [hpre]
  simp only []
  generalize L.cmsStageAllocCLut16bit _ _ _ _ _ = clut_stage
  generalize hlog : [] ++ [Call.cmsPipelineAlloc 3 (n_out_ch % 2 ^ 32).toNat pipeline] ++
      table_curve_calls pre_table pre_curves ++
      [Call.cmsStageAllocToneCurves (pre_table.dim 1 % 2 ^ 32) pre_curves pre_stage] ++
      [Call.cmsPipelineInsertStage pipeline cmsStageLoc.cmsAT_BEGIN pre_stage] ++
      [Call.cmsStageAllocCLut16bit (clut.dim 0 % 2 ^ 32) 3 (n_out_ch % 2 ^ 32).toNat
        (clut_table_of clut (clut.dim 0) n_out_ch.toNat) clut_stage] ++
      [Call.cmsPipelineInsertStage pipeline cmsStageLoc.cmsAT_END clut_stage] = log2
  obtain ⟨post_curves, post_stage, hpostlen, hpost⟩ := table_stage_exact L log2 post_table
  rw [hpost]
  simp only []
  generalize L.cmsWriteTag _ hp tag_sig _ = rc
  refine ⟨pre_curves, post_curves, pre_stage, clut_stage, post_stage, rc, hprelen, hpostlen, ?_⟩
  subst hlog
  unfold add_lut16_calls
  cases rc <;> simp

/-! ## C14: evaluation under a tag that cannot be read -/

theorem eval_lut16_of_null (L : Lcms) (hp : Handle) (tag : String)
    (input_array output_array : StridedArray) (tag_sig : cmsTagSignature)
    (htag : lut_tag_lookup tag = some tag_sig) (hnull : L.cmsReadTag hp tag_sig = NULL) :
    eval_lut16 L hp tag input_array output_array = none := by
  unfold eval_lut16
  simp only [htag]
  rw [if_pos hnull]

theorem eval_pre_table_of_null (L : Lcms) (hp : Handle) (tag : String)
    (input_array output_array : NdArray Nat) (tag_sig : cmsTagSignature)
    (htag : lut_tag_lookup tag = some tag_sig) (hnull : L.cmsReadTag hp tag_sig = NULL) :
    eval_pre_table L hp tag input_array output_array = none := by
  unfold eval_pre_table
  simp only [htag]
  rw [if_pos hnull]

/-- C14 fails on a profile that stores nothing under the registered tag A2B0: the
read-back is `NULL`, and neither `eval_lut16` nor `eval_pre_table` returns 0; each
passes the null pointer on to the library, which dereferences it.  The same
holds for every profile and registered tag whose read-back is `NULL`. -/
theorem eval_null_pipeline_not_refused :
    lut_tag_lookup "A2B0" = some cmsSigAToB0Tag
    ∧ sample_lcms.cmsReadTag 1 cmsSigAToB0Tag = NULL
    ∧ eval_lut16 sample_lcms 1 "A2B0" ⟨[2, 3], [3, 1], 0, fun _ => 7⟩
          ⟨[2, 3], [3, 1], 0, fun _ => 5⟩
        ≠ some (0, ⟨[2, 3], [3, 1], 0, fun _ => 5⟩)
    ∧ eval_lut16 sample_lcms 1 "A2B0" ⟨[2, 3], [3, 1], 0, fun _ => 7⟩
          ⟨[2, 3], [3, 1], 0, fun _ => 5⟩ = none
    ∧ eval_pre_table sample_lcms 1 "A2B0" sample_table ⟨[2, 3], fun _ => 5⟩ = none
    ∧ (∀ (L : Lcms) (hp : Handle) (tag : String) (tag_sig : cmsTagSignature)
        (input_array output_array : NdArray Nat) (input_strided output_strided : StridedArray),
        lut_tag_lookup tag = some tag_sig → L.cmsReadTag hp tag_sig = NULL →
        eval_lut16 L hp tag input_strided output_strided = none
        ∧ eval_pre_table L hp tag input_array output_array = none) := by
  have h1 : lut_tag_lookup "A2B0" = some cmsSigAToB0Tag := by decide
  have h2 : sample_lcms.cmsReadTag 1 cmsSigAToB0Tag = NULL := by decide
  have h3 := eval_lut16_of_null sample_lcms 1 "A2B0" ⟨[2, 3], [3, 1], 0, fun _ => 7⟩
    ⟨[2, 3], [3, 1], 0, fun _ => 5⟩ cmsSigAToB0Tag h1 h2
  refine ⟨h1, h2, ?_, h3, eval_pre_table_of_null sample_lcms 1 "A2B0" sample_table
    ⟨[2, 3], fun _ => 5⟩ cmsSigAToB0Tag h1 h2, ?_⟩
  · rw [h3]
    exact fun h => Option.noConfusion h
  · intro L hp tag tag_sig input_array output_array input_strided output_strided htag hnull
    exact ⟨eval_lut16_of_null L hp tag input_strided output_strided tag_sig htag hnull,
      eval_pre_table_of_null L hp tag input_array output_array tag_sig htag hnull⟩

/-! ## C13: the reads of the flattening loop -/

theorem shape_of_ndim_four {α : Type} (a : NdArray α) (h : a.ndim = 4) :
    a.shape = [a.dim 0, a.dim 1, a.dim 2, a.dim 3] := by
  unfold NdArray.ndim at h
  unfold NdArray.dim
  rcases hs : a.shape with _ | ⟨x0, _ | ⟨x1, _ | ⟨x2, _ | ⟨x3, _ | ⟨x4, rest⟩⟩⟩⟩⟩ <;>
    rw [hs] at h <;> simp at h ⊢

theorem in_shape_four {α : Type} (a : NdArray α) (N c : Nat) (hs : a.shape = [N, N, N, c])
    (i ii iii k : Nat) :
    a.in_shape [i, ii, iii, k] = true ↔ i < N ∧ ii < N ∧ iii < N ∧ k < c := by
  unfold NdArray.in_shape
  rw [hs]
  simp [and_assoc]

theorem mem_clut_loop_reads (N c : Nat) (idx : List Nat) :
    idx ∈ clut_loop_reads N c ↔
      ∃ i ii iii, i < N ∧ ii < N ∧ iii < N ∧
        ((∃ a, a < c ∧ idx = [i, ii, iii, a]) ∨ idx = [i, ii, iii, 0]
          ∨ idx = [i, ii, iii, 1] ∨ idx = [i, ii, iii, 2]) := by
  unfold clut_loop_reads
  simp only [List.mem_flatMap, List.mem_range, List.mem_append, List.mem_map, List.mem_cons,
    List.mem_singleton, List.mem_nil_iff, or_false]
  constructor
  · rintro ⟨i, hi, ii, hii, iii, hiii, h⟩
    refine ⟨i, ii, iii, hi, hii, hiii, ?_⟩
    rcases h with ⟨a, ha, rfl⟩ | h
    · exact Or.inl ⟨a, ha, rfl⟩
    · exact Or.inr h
  · rintro ⟨i, ii, iii, hi, hii, hiii, h⟩
    refine ⟨i, hi, ii, hii, iii, hiii, ?_⟩
    rcases h with ⟨a, ha, rfl⟩ | h
    · exact Or.inl ⟨a, ha, rfl⟩
    · exact Or.inr h

theorem clut_loop_reads_in_shape_iff {α : Type} (a : NdArray α) (N c : Nat)
    (hs : a.shape = [N, N, N, c]) :
    (∀ idx ∈ clut_loop_reads N c, a.in_shape idx = true) ↔ (N = 0 ∨ 3 ≤ c) := by
  constructor
  · intro h
    by_contra hn
    have hN : 0 < N := by omega
    have hc : c < 3 := by omega
    have hmem : [0, 0, 0, 2] ∈ clut_loop_reads N c :=
      (mem_clut_loop_reads N c _).2 ⟨0, 0, 0, hN, hN, hN, Or.inr (Or.inr (Or.inr rfl))⟩
    have := (in_shape_four a N c hs 0 0 0 2).1 (h _ hmem)
    omega
  · intro h idx hmem
    obtain ⟨i, ii, iii, hi, hii, hiii, hcase⟩ := (mem_clut_loop_reads N c idx).1 hmem
    have hc : 3 ≤ c := by omega
    rcases hcase with ⟨k, hk, rfl⟩ | rfl | rfl | rfl
    · exact (in_shape_four a N c hs i ii iii k).2 ⟨hi, hii, hiii, hk⟩
    · exact (in_shape_four a N c hs i ii iii 0).2 ⟨hi, hii, hiii, by omega⟩
    · exact (in_shape_four a N c hs i ii iii 1).2 ⟨hi, hii, hiii, by omega⟩
    · exact (in_shape_four a N c hs i ii iii 2).2 ⟨hi, hii, hiii, by omega⟩

/-- C13 fails for one output channel: a CLUT of shape (2, 2, 2, 1) with tables of
shapes (2, 3) and (2, 1) passes the validation of `add_lut16`, the run goes
through the flattening loop and returns -1, and the loop reads the CLUT at
(0, 0, 0, 1) and (0, 0, 0, 2), outside its shape.  For inputs that pass the validation, all reads of the loop are
within the shape exactly when the grid is empty or `n_out_ch` is at least 3. -/
theorem clut_loop_reads_out_of_shape :
    ¬ add_lut16_shape_mismatch 1 ⟨[2, 2, 2, 1], fun _ => 0⟩ ⟨[2, 3], fun _ => 0⟩
        ⟨[2, 1], fun _ => 0⟩
    ∧ (add_lut16 sample_lcms 1 "A2B0" 1 ⟨[2, 2, 2, 1], fun _ => 0⟩ ⟨[2, 3], fun _ => 0⟩
        ⟨[2, 1], fun _ => 0⟩).1 = -1
    ∧ [0, 0, 0, 1] ∈ clut_loop_reads 2 1
    ∧ (⟨[2, 2, 2, 1], fun _ => 0⟩ : NdArray Nat).in_shape [0, 0, 0, 1] = false
    ∧ [0, 0, 0, 2] ∈ clut_loop_reads 2 1
    ∧ (⟨[2, 2, 2, 1], fun _ => 0⟩ : NdArray Nat).in_shape [0, 0, 0, 2] = false
    ∧ (∀ (n_out_ch : Int) (clut pre_table post_table : NdArray Nat),
        ¬ add_lut16_shape_mismatch n_out_ch clut pre_table post_table →
        ((∀ idx ∈ clut_loop_reads (clut.dim 0) n_out_ch.toNat, clut.in_shape idx = true)
          ↔ (clut.dim 0 = 0 ∨ 3 ≤ n_out_ch))) := by
  refine ⟨by unfold add_lut16_shape_mismatch; decide, by decide, by decide, by decide,
    by decide, by decide, ?_⟩
  intro n_out_ch clut pre_table post_table hv
  unfold add_lut16_shape_mismatch at hv
  simp only [not_or, not_not, ne_eq] at hv
  obtain ⟨_, _, h4, h3, h01, h12, _, _⟩ := hv
  have hs := shape_of_ndim_four clut h4
  rw [← h12, ← h01] at hs
  have hc : n_out_ch.toNat = clut.dim 3 := by omega
  rw [hc, clut_loop_reads_in_shape_iff clut (clut.dim 0) (clut.dim 3) hs]
  omega

/-! ## What the calls of a run allocate, release and insert -/

theorem mem_table_curve_calls (table_c : NdArray Nat) (curves : List Handle) (c : Call)
    (h : c ∈ table_curve_calls table_c curves) :
    ∃ i hd, c = Call.cmsBuildTabulatedToneCurve16 (table_c.dim 0 % 2 ^ 32)
      (table_values table_c (table_c.dim 0) i) hd ∧ hd ∈ curves := by
  unfold table_curve_calls at h
  obtain ⟨n, hn⟩ := List.mem_iff_getElem?.1 h
  rw [List.getElem?_zipWith] at hn
  split at hn
  · rename_i a b ha hb
    injection hn with hn
    exact ⟨a, b, hn.symm, List.getElem?_mem hb⟩
  · cases hn

theorem table_curve_calls_mem (table_c : NdArray Nat) (curves : List Handle) (i : Nat)
    (hi : i < curves.length) :
    Call.cmsBuildTabulatedToneCurve16 (table_c.dim 0 % 2 ^ 32)
      (table_values table_c (table_c.dim 0) i) (curves.getD i NULL)
      ∈ table_curve_calls table_c curves := by
  unfold table_curve_calls
  apply List.getElem?_mem (n := i)
  rw [List.getElem?_zipWith, List.getElem?_range hi, List.getElem?_eq_getElem hi]
  simp [List.getElem?_eq_getElem hi]

theorem releases_table_curve_calls (table_c : NdArray Nat) (curves : List Handle) :
    (table_curve_calls table_c curves).filterMap Call.releases = [] := by
  rw [List.filterMap_eq_nil_iff]
  intro c hc
  obtain ⟨i, hd, rfl, _⟩ := mem_table_curve_calls table_c curves c hc
  rfl

theorem foldl_insert_table_curve_calls (lut : Handle) (table_c : NdArray Nat)
    (curves : List Handle) (stages : List Handle) :
    (table_curve_calls table_c curves).foldl (insert_stage_step lut) stages = stages := by
  have key : ∀ (l : List Call), (∀ c ∈ l, ∀ s, insert_stage_step lut s c = s) →
      ∀ s, l.foldl (insert_stage_step lut) s = s := by
    intro l
    induction l with
    | nil => intro _ s; rfl
    | cons c cs ih =>
      intro h s
      rw [List.foldl_cons, h c (List.mem_cons_self _ _) s]
      exact ih (fun c' hc' => h c' (List.mem_cons_of_mem _ hc')) s
  apply key
  intro c hc s
  obtain ⟨i, hd, rfl, _⟩ := mem_table_curve_calls table_c curves c hc
  rfl

theorem releases_add_lut16_calls (hp : Handle) (tag_sig : cmsTagSignature) (n_out_ch : Int)
    (clut pre_table post_table : NdArray Nat) (p : Handle) (pre_curves post_curves : List Handle)
    (pre_stage clut_stage post_stage : Handle) (rc : Bool) :
    (add_lut16_calls hp tag_sig n_out_ch clut pre_table post_table p pre_curves post_curves
      pre_stage clut_stage post_stage rc).filterMap Call.releases = [(ObjKind.pipeline, p)] := by
  unfold add_lut16_calls
  simp only [List.filterMap_append, releases_table_curve_calls]
  rfl

theorem inserted_stages_add_lut16_calls (hp : Handle) (tag_sig : cmsTagSignature)
    (n_out_ch : Int) (clut pre_table post_table : NdArray Nat) (p : Handle)
    (pre_curves post_curves : List Handle) (pre_stage clut_stage post_stage : Handle)
    (rc : Bool) :
    inserted_stages (add_lut16_calls hp tag_sig n_out_ch clut pre_table post_table p pre_curves
      post_curves pre_stage clut_stage post_stage rc) p
      = [pre_stage, clut_stage, post_stage].filter (fun s => decide (s ≠ NULL)) := by
  unfold inserted_stages add_lut16_calls
  simp only [List.foldl_append, foldl_insert_table_curve_calls, List.foldl_cons, List.foldl_nil]
  by_cases h1 : pre_stage = NULL <;> by_cases h2 : clut_stage = NULL <;>
    by_cases h3 : post_stage = NULL <;> simp [insert_stage_step, h1, h2, h3]

theorem add_lut16_pipeline_released (L : Lcms) (hp : Handle) (tag : String) (n_out_ch : Int)
    (clut pre_table post_table : NdArray Nat) (h : Handle) (hne : h ≠ NULL)
    (hal : (ObjKind.pipeline, h) ∈
      (add_lut16 L hp tag n_out_ch clut pre_table post_table).2.filterMap Call.allocates) :
    (ObjKind.pipeline, h) ∈
      (add_lut16 L hp tag n_out_ch clut pre_table post_table).2.filterMap Call.releases := by
  by_cases hs : add_lut16_shape_mismatch n_out_ch clut pre_table post_table
  · have hs' : pre_table.ndim ≠ 2 ∨ pre_table.dim 1 ≠ 3
        ∨ clut.ndim ≠ 3 + 1 ∨ (clut.dim 3 : Int) ≠ n_out_ch
        ∨ clut.dim 0 ≠ clut.dim 1 ∨ clut.dim 1 ≠ clut.dim 2
        ∨ post_table.ndim ≠ 2 ∨ (post_table.dim 1 : Int) ≠ n_out_ch := hs
    unfold add_lut16 at hal
    simp only [] at hal
    rw [if_pos hs'] at hal
    simp at hal
  · cases htag : lut_tag_lookup tag with
    | none =>
      rw [add_lut16_of_lookup_none L hp tag n_out_ch clut pre_table post_table htag] at hal
      simp at hal
    | some tag_sig =>
      by_cases halloc : L.cmsPipelineAlloc [] 3 (n_out_ch % 2 ^ 32).toNat = NULL
      · have hs' : ¬(pre_table.ndim ≠ 2 ∨ pre_table.dim 1 ≠ 3
            ∨ clut.ndim ≠ 3 + 1 ∨ (clut.dim 3 : Int) ≠ n_out_ch
            ∨ clut.dim 0 ≠ clut.dim 1 ∨ clut.dim 1 ≠ clut.dim 2
            ∨ post_table.ndim ≠ 2 ∨ (post_table.dim 1 : Int) ≠ n_out_ch) := hs
        unfold add_lut16 at hal
        simp only [] at hal
        rw [if_neg hs', htag] at hal
        simp only [] at hal
        rw [if_pos halloc, halloc] at hal
        simp [Call.allocates] at hal
        exact absurd hal hne
      · obtain ⟨pre_curves, post_curves, pre_stage, clut_stage, post_stage, rc, _, _, hrun⟩ :=
          add_lut16_log_exact L hp tag n_out_ch clut pre_table post_table tag_sig hs htag halloc
        rw [hrun] at hal ⊢
        simp only []
        simp only [] at hal
        rw [releases_add_lut16_calls]
        obtain ⟨c, hc, hca⟩ := List.mem_filterMap.1 hal
        unfold add_lut16_calls at hc
        simp only [List.mem_append, List.mem_cons, List.mem_singleton, List.mem_nil_iff,
          or_false] at hc
        rcases hc with (((hc | hc) | hc | hc | hc | hc) | hc) | hc | hc | hc | hc
        · subst hc
          simp only [Call.allocates, Option.some.injEq, Prod.mk.injEq, true_and] at hca
          rw [← hca]
          simp
        · obtain ⟨i, hd, rfl, _⟩ := mem_table_curve_calls _ _ c hc
          simp [Call.allocates] at hca
        · subst hc; simp [Call.allocates] at hca
        · subst hc; simp [Call.allocates] at hca
        · subst hc; simp [Call.allocates] at hca
        · subst hc; simp [Call.allocates] at hca
        · obtain ⟨i, hd, rfl, _⟩ := mem_table_curve_calls _ _ c hc
          simp [Call.allocates] at hca
        · subst hc; simp [Call.allocates] at hca
        · subst hc; simp [Call.allocates] at hca
        · subst hc; simp [Call.allocates] at hca
        · subst hc; simp [Call.allocates] at hca

theorem table_curve_calls_of_mem (table_c : NdArray Nat) (curves : List Handle) (h : Handle)
    (hm : h ∈ curves) :
    ∃ i, i < curves.length ∧ curves.getD i NULL = h
      ∧ Call.cmsBuildTabulatedToneCurve16 (table_c.dim 0 % 2 ^ 32)
          (table_values table_c (table_c.dim 0) i) h ∈ table_curve_calls table_c curves := by
  obtain ⟨i, hi, hget⟩ := List.getElem_of_mem hm
  have hd : curves.getD i NULL = h := by
    simp [List.getElem?_eq_getElem hi, hget]
  refine ⟨i, hi, hd, ?_⟩
  have := table_curve_calls_mem table_c curves i hi
  rw [hd] at this
  exact this

/-! ## C11: the objects `add_lut16` releases -/

/-- C11 fails on the tone curves.  On the sample input the run allocates a
pipeline, six tone curves and three stages, and its one release is
`cmsPipelineFree` of the pipeline: no curve handle is released.  In every run
that passes the validation and allocates its pipeline, the three curves of
the pre-table and the `n_out_ch` curves of the post-table are allocated and the
only release is that of the pipeline.  The pipeline part of the claim holds:
on every path a pipeline that was allocated is released. -/
theorem add_lut16_curves_not_released :
    (add_lut16 sample_lcms 1 "A2B0" 3 sample_clut sample_table sample_table).2.filterMap
        Call.allocates
      = [(ObjKind.pipeline, 1), (ObjKind.toneCurve, 2), (ObjKind.toneCurve, 3),
          (ObjKind.toneCurve, 4), (ObjKind.stage, 5), (ObjKind.stage, 7),
          (ObjKind.toneCurve, 9), (ObjKind.toneCurve, 10), (ObjKind.toneCurve, 11),
          (ObjKind.stage, 12)]
    ∧ (add_lut16 sample_lcms 1 "A2B0" 3 sample_clut sample_table sample_table).2.filterMap
        Call.releases = [(ObjKind.pipeline, 1)]
    ∧ (∀ (L : Lcms) (hp : Handle) (tag : String) (n_out_ch : Int)
        (clut pre_table post_table : NdArray Nat),
        ¬ add_lut16_shape_mismatch n_out_ch clut pre_table post_table →
        tag ∈ ["A2B0", "A2B1", "A2B2", "B2A0", "B2A1", "B2A2", "gamt"] →
        L.cmsPipelineAlloc [] 3 (n_out_ch % 2 ^ 32).toNat ≠ NULL →
        ∃ pre_curves post_curves : List Handle,
          pre_curves.length = 3 ∧ (post_curves.length : Int) = n_out_ch
          ∧ (∀ h ∈ pre_curves ++ post_curves, (ObjKind.toneCurve, h) ∈
              (add_lut16 L hp tag n_out_ch clut pre_table post_table).2.filterMap
                Call.allocates)
          ∧ (add_lut16 L hp tag n_out_ch clut pre_table post_table).2.filterMap Call.releases
              = [(ObjKind.pipeline, L.cmsPipelineAlloc [] 3 (n_out_ch % 2 ^ 32).toNat)])
    ∧ (∀ (L : Lcms) (hp : Handle) (tag : String) (n_out_ch : Int)
        (clut pre_table post_table : NdArray Nat) (h : Handle), h ≠ NULL →
        (ObjKind.pipeline, h) ∈
          (add_lut16 L hp tag n_out_ch clut pre_table post_table).2.filterMap Call.allocates →
        (ObjKind.pipeline, h) ∈
          (add_lut16 L hp tag n_out_ch clut pre_table post_table).2.filterMap Call.releases) := by
  refine ⟨by decide, by decide, ?_, ?_⟩
  · intro L hp tag n_out_ch clut pre_table post_table hs htag halloc
    obtain ⟨tag_sig, hsig⟩ := lut_tag_lookup_of_mem tag htag
    obtain ⟨pre_curves, post_curves, pre_stage, clut_stage, post_stage, rc, hpre, hpost, hrun⟩ :=
      add_lut16_log_exact L hp tag n_out_ch clut pre_table post_table tag_sig hs hsig halloc
    unfold add_lut16_shape_mismatch at hs
    simp only [not_or, not_not, ne_eq] at hs
    obtain ⟨_, hp3, _, _, _, _, _, hpn⟩ := hs
    refine ⟨pre_curves, post_curves, by rw [hpre, hp3], by rw [hpost, hpn], ?_, ?_⟩
    · intro h hm
      rw [hrun]
      apply List.mem_filterMap.2
      rcases List.mem_append.1 hm with hm | hm
      · obtain ⟨i, _, _, hcall⟩ := table_curve_calls_of_mem pre_table pre_curves h hm
        refine ⟨Call.cmsBuildTabulatedToneCurve16 (pre_table.dim 0 % 2 ^ 32)
          (table_values pre_table (pre_table.dim 0) i) h, ?_, rfl⟩
        unfold add_lut16_calls
        simp only [List.mem_append]
        exact Or.inl (Or.inl (Or.inl (Or.inr hcall)))
      · obtain ⟨i, _, _, hcall⟩ := table_curve_calls_of_mem post_table post_curves h hm
        refine ⟨Call.cmsBuildTabulatedToneCurve16 (post_table.dim 0 % 2 ^ 32)
          (table_values post_table (post_table.dim 0) i) h, ?_, rfl⟩
        unfold add_lut16_calls
        simp only [List.mem_append]
        exact Or.inl (Or.inr hcall)
    · rw [hrun]
      exact releases_add_lut16_calls _ _ _ _ _ _ _ _ _ _ _ _ _
  · intro L hp tag n_out_ch clut pre_table post_table h hne hal
    exact add_lut16_pipeline_released L hp tag n_out_ch clut pre_table post_table h hne hal

/-! ## C12: the pipeline `add_lut16` writes -/

theorem add_lut16_calls_of_valid (L : Lcms) (hp : Handle) (tag : String) (n_out_ch : Int)
    (clut pre_table post_table : NdArray Nat)
    (hshape : ¬(pre_table.ndim ≠ 2 ∨ pre_table.dim 1 ≠ 3 ∨ clut.ndim ≠ 4
          ∨ (clut.dim 3 : Int) ≠ n_out_ch
          ∨ clut.dim 0 ≠ clut.dim 1 ∨ clut.dim 1 ≠ clut.dim 2 ∨ post_table.ndim ≠ 2
          ∨ (post_table.dim 1 : Int) ≠ n_out_ch))
    (htag : tag ∈ ["A2B0", "A2B1", "A2B2", "B2A0", "B2A1", "B2A2", "gamt"])
    (hint : n_out_ch < 2 ^ 31)
    (halloc : L.cmsPipelineAlloc [] 3 (n_out_ch % 2 ^ 32).toNat ≠ NULL) :
    ∃ (tag_sig : cmsTagSignature) (pre_curves post_curves : List Handle)
      (pre_stage clut_stage post_stage : Handle) (rc : Bool),
      lut_tag_lookup tag = some tag_sig
      ∧ (add_lut16 L hp tag n_out_ch clut pre_table post_table).2
          = add_lut16_calls hp tag_sig n_out_ch clut pre_table post_table
              (L.cmsPipelineAlloc [] 3 (n_out_ch % 2 ^ 32).toNat) pre_curves post_curves
              pre_stage clut_stage post_stage rc
      ∧ Call.cmsPipelineAlloc 3 n_out_ch.toNat
            (L.cmsPipelineAlloc [] 3 (n_out_ch % 2 ^ 32).toNat)
          ∈ (add_lut16 L hp tag n_out_ch clut pre_table post_table).2
      ∧ Call.cmsWriteTag hp tag_sig
            (TagData.ptr (L.cmsPipelineAlloc [] 3 (n_out_ch % 2 ^ 32).toNat)) rc
          ∈ (add_lut16 L hp tag n_out_ch clut pre_table post_table).2
      ∧ inserted_stages (add_lut16 L hp tag n_out_ch clut pre_table post_table).2
            (L.cmsPipelineAlloc [] 3 (n_out_ch % 2 ^ 32).toNat)
          = [pre_stage, clut_stage, post_stage].filter (fun s => decide (s ≠ NULL))
      ∧ (pre_stage ≠ NULL → clut_stage ≠ NULL → post_stage ≠ NULL →
          inserted_stages (add_lut16 L hp tag n_out_ch clut pre_table post_table).2
              (L.cmsPipelineAlloc [] 3 (n_out_ch % 2 ^ 32).toNat)
            = [pre_stage, clut_stage, post_stage])
      ∧ Call.cmsStageAllocToneCurves 3 pre_curves pre_stage
          ∈ (add_lut16 L hp tag n_out_ch clut pre_table post_table).2
      ∧ pre_curves.length = 3
      ∧ Call.cmsStageAllocCLut16bit (clut.dim 0 % 2 ^ 32) 3 n_out_ch.toNat
            (clut_table_of clut (clut.dim 0) n_out_ch.toNat) clut_stage
          ∈ (add_lut16 L hp tag n_out_ch clut pre_table post_table).2
      ∧ Call.cmsStageAllocToneCurves n_out_ch.toNat post_curves post_stage
          ∈ (add_lut16 L hp tag n_out_ch clut pre_table post_table).2
      ∧ (post_curves.length : Int) = n_out_ch
      ∧ (∀ c : Nat, c < 3 → ∃ values : List Nat,
          Call.cmsBuildTabulatedToneCurve16 (pre_table.dim 0 % 2 ^ 32) values
              (pre_curves.getD c NULL)
            ∈ (add_lut16 L hp tag n_out_ch clut pre_table post_table).2
          ∧ values.length = pre_table.dim 0
          ∧ ∀ k, k < pre_table.dim 0 → values[k]? = some (pre_table.elem [k, c]))
      ∧ (∀ c : Nat, (c : Int) < n_out_ch → ∃ values : List Nat,
          Call.cmsBuildTabulatedToneCurve16 (post_table.dim 0 % 2 ^ 32) values
              (post_curves.getD c NULL)
            ∈ (add_lut16 L hp tag n_out_ch clut pre_table post_table).2
          ∧ values.length = post_table.dim 0
          ∧ ∀ k, k < post_table.dim 0 → values[k]? = some (post_table.elem [k, c])) := by
  have hs : ¬ add_lut16_shape_mismatch n_out_ch clut pre_table post_table := hshape
  obtain ⟨tag_sig, hsig⟩ := lut_tag_lookup_of_mem tag htag
  obtain ⟨pre_curves, post_curves, pre_stage, clut_stage, post_stage, rc, hpre, hpost, hrun⟩ :=
    add_lut16_log_exact L hp tag n_out_ch clut pre_table post_table tag_sig hs hsig halloc
  simp only [not_or, not_not, ne_eq] at hshape
  obtain ⟨_, hp3, _, hc3, _, _, _, hpn⟩ := hshape
  have hn0 : 0 ≤ n_out_ch := by omega
  have e1 : n_out_ch % 2 ^ 32 = n_out_ch := Int.emod_eq_of_lt hn0 (by omega)
  have e2 : pre_table.dim 1 % 2 ^ 32 = 3 := by rw [hp3]; norm_num
  have e3 : post_table.dim 1 % 2 ^ 32 = n_out_ch.toNat := by
    have : post_table.dim 1 = n_out_ch.toNat := by omega
    rw [this]
    apply Nat.mod_eq_of_lt
    omega
  have hlog : (add_lut16 L hp tag n_out_ch clut pre_table post_table).2
      = add_lut16_calls hp tag_sig n_out_ch clut pre_table post_table
          (L.cmsPipelineAlloc [] 3 (n_out_ch % 2 ^ 32).toNat) pre_curves post_curves
          pre_stage clut_stage post_stage rc := by rw [hrun]
  refine ⟨tag_sig, pre_curves, post_curves, pre_stage, clut_stage, post_stage, rc, hsig, hlog,
    ?_, ?_, ?_, ?_, ?_, by rw [hpre, hp3], ?_, ?_, by rw [hpost, hpn], ?_, ?_⟩
  · rw [hlog]
    unfold add_lut16_calls
    rw [e1]
    simp
  · rw [hlog]
    unfold add_lut16_calls
    simp
  · rw [hlog]
    exact inserted_stages_add_lut16_calls _ _ _ _ _ _ _ _ _ _ _ _ _
  · intro h1 h2 h3
    rw [hlog, inserted_stages_add_lut16_calls]
    simp [h1, h2, h3]
  · rw [hlog]
    unfold add_lut16_calls
    rw [e2]
    simp
  · rw [hlog]
    unfold add_lut16_calls
    rw [e1]
    simp
  · rw [hlog]
    unfold add_lut16_calls
    rw [e3]
    simp
  · intro c hc
    refine ⟨table_values pre_table (pre_table.dim 0) c, ?_,
      table_values_length pre_table (pre_table.dim 0) c,
      fun k hk => table_values_getElem? pre_table (pre_table.dim 0) c k hk⟩
    rw [hlog]
    unfold add_lut16_calls
    simp only [List.mem_append]
    exact Or.inl (Or.inl (Or.inl (Or.inr
      (table_curve_calls_mem pre_table pre_curves c (by omega)))))
  · intro c hc
    refine ⟨table_values post_table (post_table.dim 0) c, ?_,
      table_values_length post_table (post_table.dim 0) c,
      fun k hk => table_values_getElem? post_table (post_table.dim 0) c k hk⟩
    rw [hlog]
    unfold add_lut16_calls
    simp only [List.mem_append]
    exact Or.inl (Or.inr (table_curve_calls_mem post_table post_curves c (by omega)))

/-- C12 fails when the library refuses a stage.  A pre-table of shape (0, 3) passes the
validation of `add_lut16`; lcms2 builds no tone curve of no entries, so the three
curve handles are `NULL`, the stage over them is `NULL`, and
`cmsPipelineInsertStage` inserts nothing.  No handle of a curve or stage is
tested: the run goes on, writes the pipeline with two stages, the CLUT stage and
the post-table stage, and returns -1.  What holds in general, when the arrays
pass the validation, the tag is registered and the pipeline is allocated
(`n_out_ch` being an `int`): the run is the call sequence `add_lut16_calls`; the
pipeline handed to `cmsWriteTag` under the tag's signature was allocated with 3
input and `n_out_ch` output channels; its stages are those of the pre-table
stage, the CLUT stage and the post-table stage, in this order, that the library
did not answer with `NULL`; and curve `c` of a table of shape (entries, channels)
is built by `cmsBuildTabulatedToneCurve16` from a vector of exactly `entries`
samples, sample `k` being `table(k, c)`. -/
theorem add_lut16_pipeline_missing_stage :
    ¬(empty_table.ndim ≠ 2 ∨ empty_table.dim 1 ≠ 3 ∨ sample_clut.ndim ≠ 4
        ∨ (sample_clut.dim 3 : Int) ≠ 3
        ∨ sample_clut.dim 0 ≠ sample_clut.dim 1 ∨ sample_clut.dim 1 ≠ sample_clut.dim 2
        ∨ sample_table.ndim ≠ 2 ∨ (sample_table.dim 1 : Int) ≠ 3)
    ∧ (add_lut16 refusing_lcms 1 "A2B0" 3 sample_clut empty_table sample_table).1 = -1
    ∧ (add_lut16 refusing_lcms 1 "A2B0" 3 sample_clut empty_table sample_table).2
        = [Call.cmsPipelineAlloc 3 3 1,
            Call.cmsBuildTabulatedToneCurve16 0 [] NULL,
            Call.cmsBuildTabulatedToneCurve16 0 [] NULL,
            Call.cmsBuildTabulatedToneCurve16 0 [] NULL,
            Call.cmsStageAllocToneCurves 3 [NULL, NULL, NULL] NULL,
            Call.cmsPipelineInsertStage 1 cmsStageLoc.cmsAT_BEGIN NULL,
            Call.cmsStageAllocCLut16bit 2 3 3 (clut_table_of sample_clut 2 3) 7,
            Call.cmsPipelineInsertStage 1 cmsStageLoc.cmsAT_END 7,
            Call.cmsBuildTabulatedToneCurve16 2 [0, 65535] 9,
            Call.cmsBuildTabulatedToneCurve16 2 [0, 65535] 10,
            Call.cmsBuildTabulatedToneCurve16 2 [0, 65535] 11,
            Call.cmsStageAllocToneCurves 3 [9, 10, 11] 12,
            Call.cmsPipelineInsertStage 1 cmsStageLoc.cmsAT_END 12,
            Call.cmsWriteTag 1 cmsSigAToB0Tag (TagData.ptr 1) true,
            Call.cmsPipelineFree 1]
    ∧ inserted_stages
        (add_lut16 refusing_lcms 1 "A2B0" 3 sample_clut empty_table sample_table).2 1 = [7, 12]
    ∧ (∀ (L : Lcms) (hp : Handle) (tag : String) (n_out_ch : Int)
        (clut pre_table post_table : NdArray Nat),
        ¬(pre_table.ndim ≠ 2 ∨ pre_table.dim 1 ≠ 3 ∨ clut.ndim ≠ 4
          ∨ (clut.dim 3 : Int) ≠ n_out_ch
          ∨ clut.dim 0 ≠ clut.dim 1 ∨ clut.dim 1 ≠ clut.dim 2 ∨ post_table.ndim ≠ 2
          ∨ (post_table.dim 1 : Int) ≠ n_out_ch) →
        tag ∈ ["A2B0", "A2B1", "A2B2", "B2A0", "B2A1", "B2A2", "gamt"] →
        n_out_ch < 2 ^ 31 →
        L.cmsPipelineAlloc [] 3 (n_out_ch % 2 ^ 32).toNat ≠ NULL →
        ∃ (tag_sig : cmsTagSignature) (pre_curves post_curves : List Handle)
          (pre_stage clut_stage post_stage : Handle) (rc : Bool),
          lut_tag_lookup tag = some tag_sig
          ∧ (add_lut16 L hp tag n_out_ch clut pre_table post_table).2
              = add_lut16_calls hp tag_sig n_out_ch clut pre_table post_table
                  (L.cmsPipelineAlloc [] 3 (n_out_ch % 2 ^ 32).toNat) pre_curves post_curves
                  pre_stage clut_stage post_stage rc
          ∧ Call.cmsPipelineAlloc 3 n_out_ch.toNat
                (L.cmsPipelineAlloc [] 3 (n_out_ch % 2 ^ 32).toNat)
              ∈ (add_lut16 L hp tag n_out_ch clut pre_table post_table).2
          ∧ Call.cmsWriteTag hp tag_sig
                (TagData.ptr (L.cmsPipelineAlloc [] 3 (n_out_ch % 2 ^ 32).toNat)) rc
              ∈ (add_lut16 L hp tag n_out_ch clut pre_table post_table).2
          ∧ inserted_stages (add_lut16 L hp tag n_out_ch clut pre_table post_table).2
                (L.cmsPipelineAlloc [] 3 (n_out_ch % 2 ^ 32).toNat)
              = [pre_stage, clut_stage, post_stage].filter (fun s => decide (s ≠ NULL))
          ∧ (pre_stage ≠ NULL → clut_stage ≠ NULL → post_stage ≠ NULL →
              inserted_stages (add_lut16 L hp tag n_out_ch clut pre_table post_table).2
                  (L.cmsPipelineAlloc [] 3 (n_out_ch % 2 ^ 32).toNat)
                = [pre_stage, clut_stage, post_stage])
          ∧ Call.cmsStageAllocToneCurves 3 pre_curves pre_stage
              ∈ (add_lut16 L hp tag n_out_ch clut pre_table post_table).2
          ∧ pre_curves.length = 3
          ∧ Call.cmsStageAllocCLut16bit (clut.dim 0 % 2 ^ 32) 3 n_out_ch.toNat
                (clut_table_of clut (clut.dim 0) n_out_ch.toNat) clut_stage
              ∈ (add_lut16 L hp tag n_out_ch clut pre_table post_table).2
          ∧ Call.cmsStageAllocToneCurves n_out_ch.toNat post_curves post_stage
              ∈ (add_lut16 L hp tag n_out_ch clut pre_table post_table).2
          ∧ (post_curves.length : Int) = n_out_ch
          ∧ (∀ c : Nat, c < 3 → ∃ values : List Nat,
              Call.cmsBuildTabulatedToneCurve16 (pre_table.dim 0 % 2 ^ 32) values
                  (pre_curves.getD c NULL)
                ∈ (add_lut16 L hp tag n_out_ch clut pre_table post_table).2
              ∧ values.length = pre_table.dim 0
              ∧ ∀ k, k < pre_table.dim 0 → values[k]? = some (pre_table.elem [k, c]))
          ∧ (∀ c : Nat, (c : Int) < n_out_ch → ∃ values : List Nat,
              Call.cmsBuildTabulatedToneCurve16 (post_table.dim 0 % 2 ^ 32) values
                  (post_curves.getD c NULL)
                ∈ (add_lut16 L hp tag n_out_ch clut pre_table post_table).2
              ∧ values.length = post_table.dim 0
              ∧ ∀ k, k < post_table.dim 0 → values[k]? = some (post_table.elem [k, c]))) := by
  refine ⟨by decide, by decide, by decide, by decide, ?_⟩
  intro L hp tag n_out_ch clut pre_table post_table hshape htag hint halloc
  exact add_lut16_calls_of_valid L hp tag n_out_ch clut pre_table post_table hshape htag hint
    halloc

end Cmm
